import Mathlib

/-!
# Verification of the Nexus-Platform video-call room coordinator

Shallow embedding of `nexus-backend/utils/videoCallManager.js` and the
`endVideoCall` route of `nexus-backend/controllers/videoCallController.js`.

The coordinator's two shared structures (`this.rooms`, `this.participants`,
both JavaScript `Map`s) are embedded as association lists with JS-`Map`
semantics: `set` updates in place preserving insertion order and appends new
keys at the end; `delete` removes the key; iteration order is insertion order.
External I/O (socket emissions, Meeting-record writes, forced disconnects) is
embedded as an explicit effect list returned alongside the new state.
-/

namespace Nexus

/-- JS `Map.get`: the value bound to the first occurrence of the key. -/
def mapGet (m : List (String × α)) (k : String) : Option α :=
  match m with
  | [] => none
  | (k', v) :: rest => if k' = k then some v else mapGet rest k

/-- JS `Map.set`: update the existing binding in place, else append. -/
def mapSet (m : List (String × α)) (k : String) (v : α) : List (String × α) :=
  match m with
  | [] => [(k, v)]
  | (k', v') :: rest => if k' = k then (k, v) :: rest else (k', v') :: mapSet rest k v

/-- JS `Map.delete`: remove the binding of the key (first occurrence). -/
def mapDelete (m : List (String × α)) (k : String) : List (String × α) :=
  match m with
  | [] => []
  | (k', v') :: rest => if k' = k then rest else (k', v') :: mapDelete rest k

/-- JS `Map.has`. -/
def mapHas (m : List (String × α)) (k : String) : Bool :=
  (mapGet m k).isSome

/-- The keys of the map, in insertion order. -/
def mapKeys (m : List (String × α)) : List String :=
  m.map Prod.fst

/-- Keys of the map are pairwise distinct: the well-formedness JS `Map`s
guarantee by construction. -/
def KeysNodup (m : List (String × α)) : Prop :=
  (mapKeys m).Nodup


/-! ## Data model (from `videoCallManager.js`) -/

/-- A participant entry as stored in a room's `participants` map
(`videoCallManager.js`, `handleJoinRoom`). -/
structure Participant where
  socketId : String
  userId : String
  userName : String
  isOrganizer : Bool
  joinedAt : Nat
  audio : Bool
  video : Bool
  isScreenSharing : Bool
deriving DecidableEq

/-- An entry of the coordinator's reverse index `this.participants`:
the spread `{ ...participant, roomId }`. -/
structure ParticipantEntry where
  p : Participant
  roomId : String
deriving DecidableEq

/-- A chat message as built in `handleChatMessage`. -/
structure ChatMessage where
  id : String
  userId : String
  userName : String
  message : String
  timestamp : Nat
  isOrganizer : Bool
deriving DecidableEq

/-- A room's state (`handleJoinRoom` room initialization). -/
structure Room where
  participants : List (String × Participant)
  meetingId : String
  meetingTitle : String
  startTime : Nat
  isRecording : Bool
  chatMessages : List ChatMessage
deriving DecidableEq

/-- The coordinator state: `this.rooms` and `this.participants` of
`VideoCallManager`. -/
structure ManagerState where
  rooms : List (String × Room)
  participants : List (String × ParticipantEntry)
deriving DecidableEq

/-- The empty coordinator state (the constructor). -/
def initialState : ManagerState :=
  { rooms := [], participants := [] }

/-- The external Meeting record, as far as the coordinator reads and
writes it: title, organizer id, attendee user ids, status, notes. -/
structure MeetingRec where
  title : String
  organizer : String
  attendees : List String
  status : String
  notes : String
deriving DecidableEq

/-- The external Meeting collection, keyed by meeting id. -/
def DB := List (String × MeetingRec)
deriving DecidableEq

/-- `Meeting.findByIdAndUpdate(mid, { status })`: no-op when absent. -/
def dbSetStatus (db : DB) (mid status : String) : DB :=
  match mapGet db mid with
  | none => db
  | some m => mapSet db mid { m with status := status }

/-- `Meeting.findByIdAndUpdate(mid, { status, notes })`: no-op when absent. -/
def dbSetStatusNotes (db : DB) (mid status notes : String) : DB :=
  match mapGet db mid with
  | none => db
  | some m => mapSet db mid { m with status := status, notes := notes }

/-! ## Emitted events and external effects

Socket emissions and external Meeting-record writes are collected in an
effect list. `EmitScope` captures which socket.io primitive performed the
emission; actual delivery is resolved against a `Net` (the socket.io
adapter state) by `scopeTargets` below. -/

/-- The participant projection sent in `room-joined` responses. -/
structure ParticipantInfo where
  socketId : String
  userId : String
  userName : String
  isOrganizer : Bool
  audio : Bool
  video : Bool
  isScreenSharing : Bool
deriving DecidableEq

/-- `participantList` projection in `handleJoinRoom`. -/
def projInfo (p : Participant) : ParticipantInfo :=
  { socketId := p.socketId, userId := p.userId, userName := p.userName,
    isOrganizer := p.isOrganizer, audio := p.audio, video := p.video,
    isScreenSharing := p.isScreenSharing }

/-- Payload of an emitted socket event. -/
inductive Payload where
  | errorMsg (message : String)
  | joined (socketId userId userName : String) (isOrganizer : Bool)
  | roomState (roomId meetingTitle : String)
      (participants : List ParticipantInfo) (chatMessages : List ChatMessage)
  | signal (fromSocketId : String) (data : String)
  | audioToggle (socketId : String) (audio : Bool)
  | videoToggle (socketId : String) (video : Bool)
  | shareStarted (socketId userName : String)
  | shareStopped (socketId : String)
  | chat (msg : ChatMessage)
  | left (socketId userName : String)
  | callEnded (message endedBy : String)
deriving DecidableEq

/-- Which socket.io primitive an emission used.

* `toSelf target` — `socket.emit(...)` on the handling socket itself;
* `toPersonal sender target` — `socket.to(targetSocketId).emit(...)`;
* `toRoomExcept sender roomId` — `socket.to(roomId).emit(...)`;
* `toRoomAll roomId` — `this.io.to(roomId).emit(...)`. -/
inductive EmitScope where
  | toSelf (target : String)
  | toPersonal (senderId targetId : String)
  | toRoomExcept (senderId roomId : String)
  | toRoomAll (roomId : String)
deriving DecidableEq

/-- One observable external effect of a coordinator operation. -/
inductive Effect where
  | emit (scope : EmitScope) (event : String) (payload : Payload)
  | meetingUpdate (meetingId status : String) (notes : Option String)
  | forceDisconnect (socketId : String)
deriving DecidableEq

/-- The socket.io adapter state: which sockets are connected, and the
membership of each broadcast room (`socket.join(roomId)`). -/
structure Net where
  connected : List String
  groups : List (String × List String)

/-- Members of a broadcast room in the adapter. -/
def groupMembers (net : Net) (roomId : String) : List String :=
  (mapGet net.groups roomId).getD []

/-- socket.io delivery semantics. `socket.emit` delivers to the socket
itself while it is connected. A broadcast `socket.to(x).emit` targets the
room named `x` and always excludes the sending socket; every connected
socket is a member of a personal room named by its own socket id, so
`socket.to(targetSocketId)` reaches exactly the target when it is
connected and is not the sender. `io.to(roomId).emit` reaches every
member of the room, the sender included. -/
def scopeTargets (net : Net) : EmitScope → List String
  | .toSelf target =>
      if net.connected.contains target then [target] else []
  | .toPersonal senderId targetId =>
      if net.connected.contains targetId && targetId != senderId then [targetId] else []
  | .toRoomExcept senderId roomId =>
      (groupMembers net roomId).filter (fun m => m ≠ senderId)
  | .toRoomAll roomId => groupMembers net roomId

/-- A delivered event: recipient, event name, payload. -/
structure Delivery where
  target : String
  event : String
  payload : Payload
deriving DecidableEq

/-- Deliveries produced by one effect. Only emissions deliver. -/
def effectDeliveries (net : Net) : Effect → List Delivery
  | .emit scope event payload =>
      (scopeTargets net scope).map (fun t => ⟨t, event, payload⟩)
  | .meetingUpdate _ _ _ => []
  | .forceDisconnect _ => []

/-- All deliveries of an effect list, in order. -/
def runDeliveries (net : Net) (effs : List Effect) : List Delivery :=
  (effs.map (effectDeliveries net)).flatten

/-! ## Operations (from `videoCallManager.js` and `videoCallController.js`) -/

/-- JS `Array.prototype.slice(-n)`: the last `n` elements. -/
def lastN (n : Nat) (l : List α) : List α :=
  l.drop (l.length - n)

/-- The two `throw`s of `handleJoinRoom`. -/
inductive JoinError where
  | notFound
  | forbidden
deriving DecidableEq

/-- The error messages thrown by `handleJoinRoom`. -/
def joinErrorMessage : JoinError → String
  | .notFound => "Meeting not found"
  | .forbidden => "You are not authorized to join this meeting"

/-- The `room-joined` response sent back to the joining socket. -/
structure JoinResponse where
  roomId : String
  meetingTitle : String
  participants : List ParticipantInfo
  chatMessages : List ChatMessage
deriving DecidableEq

/-- `handleJoinRoom(socket, { meetingId, userId, userName })`. `now` stands
for `new Date()`. Returns the new coordinator state, the new external DB,
the `room-joined` response and the emitted effects, or the thrown error. -/
def handleJoinRoom (s : ManagerState) (db : DB)
    (socketId meetingId userId userName : String) (now : Nat) :
    Except JoinError (ManagerState × DB × JoinResponse × List Effect) :=
  match mapGet db meetingId with
  | none => .error .notFound
  | some meeting =>
    let isOrganizer : Bool := meeting.organizer == userId
    let isAttendee : Bool := meeting.attendees.contains userId
    if !isOrganizer && !isAttendee then .error .forbidden
    else
      let roomId := "meeting_" ++ meetingId
      let (rooms1, db1, room) :=
        match mapGet s.rooms roomId with
        | none =>
          let newRoom : Room :=
            { participants := [], meetingId := meetingId,
              meetingTitle := meeting.title, startTime := now,
              isRecording := false, chatMessages := [] }
          (mapSet s.rooms roomId newRoom, dbSetStatus db meetingId "ongoing", newRoom)
        | some r => (s.rooms, db, r)
      let participant : Participant :=
        { socketId := socketId, userId := userId, userName := userName,
          isOrganizer := isOrganizer, joinedAt := now,
          audio := true, video := true, isScreenSharing := false }
      let room' := { room with participants := mapSet room.participants socketId participant }
      let resp : JoinResponse :=
        { roomId := roomId, meetingTitle := room.meetingTitle,
          participants := room'.participants.map (fun kv => projInfo kv.2),
          chatMessages := lastN 50 room.chatMessages }
      .ok ({ rooms := mapSet rooms1 roomId room',
             participants := mapSet s.participants socketId
               { p := participant, roomId := roomId } },
           db1, resp,
           [ Effect.emit (.toRoomExcept socketId roomId) "user-joined"
               (.joined socketId userId userName isOrganizer),
             Effect.emit (.toSelf socketId) "room-joined"
               (.roomState resp.roomId resp.meetingTitle resp.participants resp.chatMessages) ])

/-- The `join-room` socket handler of `initializeSocket`: `handleJoinRoom`
wrapped in try/catch; a thrown error becomes a single `error` emission to
the handling socket only. -/
def onJoinRoom (s : ManagerState) (db : DB)
    (socketId meetingId userId userName : String) (now : Nat) :
    ManagerState × DB × List Effect :=
  match handleJoinRoom s db socketId meetingId userId userName now with
  | .error e => (s, db, [.emit (.toSelf socketId) "error" (.errorMsg (joinErrorMessage e))])
  | .ok (s', db', _, effs) => (s', db', effs)

/-- `handleOffer(socket, { targetSocketId, offer })`: pure relay, no state
access. -/
def handleOffer (s : ManagerState) (senderId targetSocketId offer : String) :
    ManagerState × List Effect :=
  (s, [.emit (.toPersonal senderId targetSocketId) "offer" (.signal senderId offer)])

/-- `handleAnswer(socket, { targetSocketId, answer })`. -/
def handleAnswer (s : ManagerState) (senderId targetSocketId answer : String) :
    ManagerState × List Effect :=
  (s, [.emit (.toPersonal senderId targetSocketId) "answer" (.signal senderId answer)])

/-- `handleIceCandidate(socket, { targetSocketId, candidate })`. -/
def handleIceCandidate (s : ManagerState) (senderId targetSocketId candidate : String) :
    ManagerState × List Effect :=
  (s, [.emit (.toPersonal senderId targetSocketId) "ice-candidate" (.signal senderId candidate)])

/-- `handleToggleAudio(socket, { audio })`. -/
def handleToggleAudio (s : ManagerState) (socketId : String) (audio : Bool) :
    ManagerState × List Effect :=
  match mapGet s.participants socketId with
  | none => (s, [])
  | some entry =>
    match mapGet s.rooms entry.roomId with
    | none => (s, [])
    | some room =>
      match mapGet room.participants socketId with
      | none => (s, [])
      | some p =>
        let room' := { room with
          participants := mapSet room.participants socketId { p with audio := audio } }
        ({ rooms := mapSet s.rooms entry.roomId room',
           participants := mapSet s.participants socketId
             { entry with p := { entry.p with audio := audio } } },
         [.emit (.toRoomExcept socketId entry.roomId) "participant-audio-toggle"
            (.audioToggle socketId audio)])

/-- `handleToggleVideo(socket, { video })`. -/
def handleToggleVideo (s : ManagerState) (socketId : String) (video : Bool) :
    ManagerState × List Effect :=
  match mapGet s.participants socketId with
  | none => (s, [])
  | some entry =>
    match mapGet s.rooms entry.roomId with
    | none => (s, [])
    | some room =>
      match mapGet room.participants socketId with
      | none => (s, [])
      | some p =>
        let room' := { room with
          participants := mapSet room.participants socketId { p with video := video } }
        ({ rooms := mapSet s.rooms entry.roomId room',
           participants := mapSet s.participants socketId
             { entry with p := { entry.p with video := video } } },
         [.emit (.toRoomExcept socketId entry.roomId) "participant-video-toggle"
            (.videoToggle socketId video)])

/-- `handleStartScreenShare(socket)`. -/
def handleStartScreenShare (s : ManagerState) (socketId : String) :
    ManagerState × List Effect :=
  match mapGet s.participants socketId with
  | none => (s, [])
  | some entry =>
    match mapGet s.rooms entry.roomId with
    | none => (s, [])
    | some room =>
      match mapGet room.participants socketId with
      | none => (s, [])
      | some p =>
        let room' := { room with
          participants := mapSet room.participants socketId { p with isScreenSharing := true } }
        ({ rooms := mapSet s.rooms entry.roomId room',
           participants := mapSet s.participants socketId
             { entry with p := { entry.p with isScreenSharing := true } } },
         [.emit (.toRoomExcept socketId entry.roomId) "screen-share-started"
            (.shareStarted socketId entry.p.userName)])

/-- `handleStopScreenShare(socket)`. -/
def handleStopScreenShare (s : ManagerState) (socketId : String) :
    ManagerState × List Effect :=
  match mapGet s.participants socketId with
  | none => (s, [])
  | some entry =>
    match mapGet s.rooms entry.roomId with
    | none => (s, [])
    | some room =>
      match mapGet room.participants socketId with
      | none => (s, [])
      | some p =>
        let room' := { room with
          participants := mapSet room.participants socketId { p with isScreenSharing := false } }
        ({ rooms := mapSet s.rooms entry.roomId room',
           participants := mapSet s.participants socketId
             { entry with p := { entry.p with isScreenSharing := false } } },
         [.emit (.toRoomExcept socketId entry.roomId) "screen-share-stopped"
            (.shareStopped socketId)])

/-- JS `String.prototype.trim()`: strip leading and trailing whitespace
(structurally recursive, unlike core `String.trim`, so that concrete
instances evaluate). -/
def jsTrim (s : String) : String :=
  String.mk (((s.data.dropWhile Char.isWhitespace).reverse.dropWhile
    Char.isWhitespace).reverse)

/-- `handleChatMessage(socket, { message })`. `msgId` stands for `uuidv4()`
and `now` for `new Date()`. -/
def handleChatMessage (s : ManagerState) (socketId message msgId : String) (now : Nat) :
    ManagerState × List Effect :=
  match mapGet s.participants socketId with
  | none => (s, [])
  | some entry =>
    if jsTrim message = "" then (s, [])
    else
      match mapGet s.rooms entry.roomId with
      | none => (s, [])
      | some room =>
        let chatMessage : ChatMessage :=
          { id := msgId, userId := entry.p.userId, userName := entry.p.userName,
            message := jsTrim message, timestamp := now,
            isOrganizer := entry.p.isOrganizer }
        let msgs1 := room.chatMessages ++ [chatMessage]
        let msgs2 := if msgs1.length > 100 then lastN 100 msgs1 else msgs1
        ({ s with rooms := mapSet s.rooms entry.roomId { room with chatMessages := msgs2 } },
         [.emit (.toRoomAll entry.roomId) "chat-message" (.chat chatMessage)])

/-- `removeParticipant(socket)`. `dbOk` models whether the external
`Meeting.findByIdAndUpdate` during empty-room teardown succeeds; the JS
catch block swallows its failure, so only the DB result may differ. The
`meetingUpdate` effect records that the external update was attempted. -/
def removeParticipant (dbOk : Bool) (s : ManagerState) (db : DB) (socketId : String) :
    ManagerState × DB × List Effect :=
  match mapGet s.participants socketId with
  | none => (s, db, [])
  | some entry =>
    match mapGet s.rooms entry.roomId with
    | none =>
        ({ s with participants := mapDelete s.participants socketId }, db, [])
    | some room =>
      let room' := { room with participants := mapDelete room.participants socketId }
      let leftEffect : Effect :=
        .emit (.toRoomExcept socketId entry.roomId) "user-left"
          (.left socketId entry.p.userName)
      if room'.participants.length = 0 then
        let n := room.chatMessages.length
        let note := if n > 0
          then "Meeting completed with " ++ toString n ++ " chat messages"
          else "Meeting completed"
        ({ rooms := mapDelete s.rooms entry.roomId,
           participants := mapDelete s.participants socketId },
         (if dbOk then dbSetStatusNotes db room.meetingId "completed" note else db),
         [leftEffect, .meetingUpdate room.meetingId "completed" (some note)])
      else
        ({ rooms := mapSet s.rooms entry.roomId room',
           participants := mapDelete s.participants socketId },
         db, [leftEffect])

/-- `handleLeaveRoom(socket)`: delegates to `removeParticipant`. -/
def handleLeaveRoom : Bool → ManagerState → DB → String → ManagerState × DB × List Effect :=
  removeParticipant

/-- `handleDisconnect(socket)`: logs, then delegates to `removeParticipant`. -/
def handleDisconnect : Bool → ManagerState → DB → String → ManagerState × DB × List Effect :=
  removeParticipant

/-! ### Admin operations (`getRoomStats`, `endVideoCall`) -/

/-- Per-participant summary of `getRoomStats`. -/
structure StatsParticipant where
  userName : String
  joinedAt : Nat
  audio : Bool
  video : Bool
  isScreenSharing : Bool
deriving DecidableEq

/-- `getRoomStats` participant projection. -/
def statsProj (p : Participant) : StatsParticipant :=
  { userName := p.userName, joinedAt := p.joinedAt, audio := p.audio,
    video := p.video, isScreenSharing := p.isScreenSharing }

/-- Per-room entry of `getRoomStats`. -/
structure RoomStats where
  roomId : String
  meetingId : String
  meetingTitle : String
  participantCount : Nat
  startTime : Nat
  duration : Int
  isRecording : Bool
  participants : List StatsParticipant
deriving DecidableEq

/-- The `getRoomStats` snapshot. -/
structure Stats where
  totalRooms : Nat
  totalParticipants : Nat
  rooms : List RoomStats
deriving DecidableEq

/-- `getRoomStats()`. `nowMs` stands for `Date.now()`. Read-only. -/
def getRoomStats (s : ManagerState) (nowMs : Nat) : Stats :=
  { totalRooms := s.rooms.length,
    totalParticipants := s.participants.length,
    rooms := s.rooms.map (fun kv =>
      { roomId := kv.1, meetingId := kv.2.meetingId,
        meetingTitle := kv.2.meetingTitle,
        participantCount := kv.2.participants.length,
        startTime := kv.2.startTime,
        duration := (nowMs : Int) - (kv.2.startTime : Int),
        isRecording := kv.2.isRecording,
        participants := kv.2.participants.map (fun pkv => statsProj pkv.2) }) }

/-- The HTTP failure statuses of `endVideoCall` (404 / 403). -/
inductive EndCallError where
  | notFound
  | forbidden
deriving DecidableEq

/-- `endVideoCall` from `videoCallController.js`. `connected` is the set of
live sockets (`io.sockets.sockets`); `userName` is `req.user.name`; `nowStr`
stands for `new Date().toISOString()`. Broadcasts `call-ended` to the whole
room, force-disconnects every connected participant socket, deletes the room,
and marks the meeting completed with an appended note. -/
def endVideoCall (connected : List String) (s : ManagerState) (db : DB)
    (userId meetingId userName nowStr : String) :
    Except EndCallError (ManagerState × DB × List Effect) :=
  match mapGet db meetingId with
  | none => .error .notFound
  | some meeting =>
    if meeting.organizer ≠ userId then .error .forbidden
    else
      let roomId := "meeting_" ++ meetingId
      let (s', effs) :=
        match mapGet s.rooms roomId with
        | none => (s, ([] : List Effect))
        | some room =>
          ({ s with rooms := mapDelete s.rooms roomId },
           Effect.emit (.toRoomAll roomId) "call-ended"
               (.callEnded "The call has been ended by the organizer" userName)
             :: (mapKeys room.participants).filterMap (fun sid =>
                  if connected.contains sid then some (Effect.forceDisconnect sid) else none))
      .ok (s', mapSet db meetingId
             { meeting with
               status := "completed",
               notes := meeting.notes ++ "\nCall ended by organizer at " ++ nowStr },
           effs)

/-! ## Event sequences

`initializeSocket` dispatches each inbound socket event to one handler; a
thrown join error is caught and reported to the caller only. `step` is that
dispatch, restricted to the state-and-DB result. Timestamps and generated
message ids do not influence control flow, so the runs fix them. -/

/-- Participant count of a room in the registry, `0` when the room is absent. -/
def roomParticipantCount (s : ManagerState) (roomId : String) : Nat :=
  match mapGet s.rooms roomId with
  | some r => r.participants.length
  | none => 0

/-- One inbound socket event, tagged with the handling socket's id. -/
inductive SocketEvent where
  | join (socketId meetingId userId userName : String)
  | offer (socketId targetSocketId data : String)
  | answer (socketId targetSocketId data : String)
  | ice (socketId targetSocketId data : String)
  | toggleAudio (socketId : String) (audio : Bool)
  | toggleVideo (socketId : String) (video : Bool)
  | startShare (socketId : String)
  | stopShare (socketId : String)
  | chat (socketId message msgId : String)
  | leave (socketId : String)
  | disconnect (socketId : String)

/-- The socket-event dispatch of `initializeSocket`, projected to the
coordinator state and the external DB. -/
def step (sd : ManagerState × DB) : SocketEvent → ManagerState × DB
  | .join sid mid uid uname =>
      let r := onJoinRoom sd.1 sd.2 sid mid uid uname 0
      (r.1, r.2.1)
  | .offer sid tid d => ((handleOffer sd.1 sid tid d).1, sd.2)
  | .answer sid tid d => ((handleAnswer sd.1 sid tid d).1, sd.2)
  | .ice sid tid d => ((handleIceCandidate sd.1 sid tid d).1, sd.2)
  | .toggleAudio sid b => ((handleToggleAudio sd.1 sid b).1, sd.2)
  | .toggleVideo sid b => ((handleToggleVideo sd.1 sid b).1, sd.2)
  | .startShare sid => ((handleStartScreenShare sd.1 sid).1, sd.2)
  | .stopShare sid => ((handleStopScreenShare sd.1 sid).1, sd.2)
  | .chat sid msg mid2 => ((handleChatMessage sd.1 sid msg mid2 0).1, sd.2)
  | .leave sid =>
      let r := handleLeaveRoom true sd.1 sd.2 sid
      (r.1, r.2.1)
  | .disconnect sid =>
      let r := handleDisconnect true sd.1 sd.2 sid
      (r.1, r.2.1)

/-- Run a sequence of socket events from a fresh coordinator. -/
def runEvents (db : DB) (evs : List SocketEvent) : ManagerState × DB :=
  evs.foldl step (initialState, db)

/-- `step`, under the assumption that no already-registered connection
issues a second `join` before leaving: such a join is not delivered. -/
def stepGuarded (sd : ManagerState × DB) (ev : SocketEvent) : ManagerState × DB :=
  match ev with
  | .join sid _ _ _ =>
      if (mapGet sd.1.participants sid).isSome then sd else step sd ev
  | _ => step sd ev

/-- Run a sequence of socket events from a fresh coordinator, with no
double-joins delivered. -/
def runEventsGuarded (db : DB) (evs : List SocketEvent) : ManagerState × DB :=
  evs.foldl stepGuarded (initialState, db)

/-! ## Invariants -/

/-- Every registered room has at least one participant. -/
def RoomsNonempty (s : ManagerState) : Prop :=
  ∀ rid r, (rid, r) ∈ s.rooms → r.participants ≠ []

/-- Every registered room's chat log respects the retention cap of 100. -/
def ChatCapped (s : ManagerState) : Prop :=
  ∀ rid r, (rid, r) ∈ s.rooms → r.chatMessages.length ≤ 100

/-- The map well-formedness JS `Map`s provide by construction: distinct
keys in the registry, the reverse index, and each room's participant map. -/
def StateWF (s : ManagerState) : Prop :=
  KeysNodup s.rooms ∧ KeysNodup s.participants ∧
  ∀ rid r, (rid, r) ∈ s.rooms → KeysNodup r.participants

/-- The media flags of a room participant record agree with those of a
reverse-index entry. -/
def flagsMatch (p : Participant) (e : ParticipantEntry) : Prop :=
  p.audio = e.p.audio ∧ p.video = e.p.video ∧ p.isScreenSharing = e.p.isScreenSharing

/-- Coherence of the reverse index `this.participants` with the room
registry: an indexed connection's recorded room exists and contains it with
matching media flags, and every room member is indexed under that room's id
(so no connection sits in two rooms at once). -/
def Coherent (s : ManagerState) : Prop :=
  (∀ sid e, mapGet s.participants sid = some e →
    ∃ r, mapGet s.rooms e.roomId = some r ∧
      ∃ p, mapGet r.participants sid = some p ∧ flagsMatch p e) ∧
  (∀ rid r sid, mapGet s.rooms rid = some r → (mapGet r.participants sid).isSome →
    ∃ e, mapGet s.participants sid = some e ∧ e.roomId = rid)

/-- The meeting fields the join authorization reads: organizer and
attendee ids. The coordinator only ever writes `status` and `notes`, so
this view is stable under coordinator activity. -/
def dbView (db : DB) (mid : String) : Option (String × List String) :=
  (mapGet db mid).map (fun m => (m.organizer, m.attendees))

/-- Witness data: a one-meeting DB (organizer `u1`, attendee `u2`). -/
def c9Db : DB :=
  [("m1", { title := "T", organizer := "u1", attendees := ["u2"],
            status := "scheduled", notes := "" })]

/-- Witness data: the same DB after the first join marked it ongoing. -/
def c9DbAfter : DB :=
  [("m1", { title := "T", organizer := "u1", attendees := ["u2"],
            status := "ongoing", notes := "" })]

/-- Witness data: the organizer's participant record after joining. -/
def c9P : Participant :=
  { socketId := "s1", userId := "u1", userName := "Alice",
    isOrganizer := true, joinedAt := 0, audio := true, video := true,
    isScreenSharing := false }

/-- Witness data: the coordinator state after the organizer's join. -/
def c9State : ManagerState :=
  { rooms := [("meeting_m1",
      { participants := [("s1", c9P)], meetingId := "m1",
        meetingTitle := "T", startTime := 0, isRecording := false,
        chatMessages := [] })],
    participants := [("s1", { p := c9P, roomId := "meeting_m1" })] }

/-- Witness data: the join response for the organizer's join. -/
def c9Resp : JoinResponse :=
  { roomId := "meeting_m1", meetingTitle := "T",
    participants := [projInfo c9P], chatMessages := [] }

/-- Witness data: the effects of the organizer's join. -/
def c9Effs : List Effect :=
  [ Effect.emit (.toRoomExcept "s1" "meeting_m1") "user-joined"
      (.joined "s1" "u1" "Alice" true),
    Effect.emit (.toSelf "s1") "room-joined"
      (.roomState "meeting_m1" "T" [projInfo c9P] []) ]

/-- The chat record `handleChatMessage` builds for a sender's index entry. -/
def mkChatMessage (entry : ParticipantEntry) (message msgId : String)
    (now : Nat) : ChatMessage :=
  { id := msgId, userId := entry.p.userId, userName := entry.p.userName,
    message := jsTrim message, timestamp := now,
    isOrganizer := entry.p.isOrganizer }

/-- Witness data: a participant record for the chat-cap witness. -/
def c4P : Participant :=
  { socketId := "s1", userId := "u1", userName := "Alice",
    isOrganizer := false, joinedAt := 0, audio := true, video := true,
    isScreenSharing := false }

/-- Witness data: one pre-existing chat message, repeated to capacity. -/
def c4Msg : ChatMessage :=
  { id := "old", userId := "u1", userName := "Alice", message := "x",
    timestamp := 0, isOrganizer := false }

/-- Witness data: a room whose chat log is exactly at the cap of 100. -/
def c4Room : Room :=
  { participants := [("s1", c4P)], meetingId := "m1", meetingTitle := "T",
    startTime := 0, isRecording := false,
    chatMessages := List.replicate 100 c4Msg }

/-- Witness data: a coordinator whose one room is at chat capacity. -/
def c4State : ManagerState :=
  { rooms := [("meeting_m1", c4Room)],
    participants := [("s1", { p := c4P, roomId := "meeting_m1" })] }

/-- Witness data: a participant record for the toggle witness. -/
def c7P : Participant :=
  { socketId := "s1", userId := "u1", userName := "Alice",
    isOrganizer := false, joinedAt := 0, audio := true, video := true,
    isScreenSharing := false }

/-- Witness data: a second participant sharing the toggle-witness room. -/
def c7Q : Participant :=
  { socketId := "s2", userId := "u2", userName := "Bob",
    isOrganizer := false, joinedAt := 0, audio := true, video := true,
    isScreenSharing := false }

/-- Witness data: a two-participant room for the toggle witness. -/
def c7Room : Room :=
  { participants := [("s1", c7P), ("s2", c7Q)], meetingId := "m1",
    meetingTitle := "T", startTime := 0, isRecording := false,
    chatMessages := [] }

/-- Witness data: a coordinator with one two-participant room. -/
def c7State : ManagerState :=
  { rooms := [("meeting_m1", c7Room)],
    participants := [("s1", { p := c7P, roomId := "meeting_m1" }),
                     ("s2", { p := c7Q, roomId := "meeting_m1" })] }

/-- Witness data: participant records for the endCall witness. -/
def c5P (i : Nat) : Participant :=
  { socketId := "s" ++ toString i, userId := "u" ++ toString i,
    userName := "U" ++ toString i, isOrganizer := i == 1, joinedAt := 0,
    audio := true, video := true, isScreenSharing := false }

/-- Witness data: a three-participant room for the endCall witness. -/
def c5Room : Room :=
  { participants := [("s1", c5P 1), ("s2", c5P 2), ("s3", c5P 3)],
    meetingId := "m1", meetingTitle := "T", startTime := 0,
    isRecording := false, chatMessages := [] }

/-- Witness data: the coordinator hosting the endCall witness room. -/
def c5State : ManagerState :=
  { rooms := [("meeting_m1", c5Room)],
    participants := [("s1", { p := c5P 1, roomId := "meeting_m1" }),
                     ("s2", { p := c5P 2, roomId := "meeting_m1" }),
                     ("s3", { p := c5P 3, roomId := "meeting_m1" })] }

/-- Witness data: the one-meeting DB for the endCall witness. -/
def c5Db : DB :=
  [("m1", { title := "T", organizer := "u1", attendees := ["u2", "u3"],
            status := "ongoing", notes := "N" })]

/-- Witness data: the DB after the organizer ended the call. -/
def c5DbAfter : DB :=
  [("m1", { title := "T", organizer := "u1", attendees := ["u2", "u3"],
            status := "completed",
            notes := "N\nCall ended by organizer at 2026" })]

/-- Witness data: the effects of the organizer's endCall. -/
def c5Effs : List Effect :=
  [ Effect.emit (.toRoomAll "meeting_m1") "call-ended"
      (.callEnded "The call has been ended by the organizer" "Alice"),
    Effect.forceDisconnect "s1", Effect.forceDisconnect "s2",
    Effect.forceDisconnect "s3" ]

/-- Witness data: the adapter state for the endCall witness. -/
def c5Net : Net :=
  { connected := ["s1", "s2", "s3"],
    groups := [("meeting_m1", ["s1", "s2", "s3"])] }

/-! ## Claim theorems -/

/-! ### Association-map lemmas -/

@[simp] theorem mapGet_nil (k : String) : mapGet ([] : List (String × α)) k = none := rfl

@[simp] theorem mapGet_cons (k' k : String) (v : α) (rest : List (String × α)) :
    mapGet ((k', v) :: rest) k = if k' = k then some v else mapGet rest k := rfl

@[simp] theorem mapGet_set_self (m : List (String × α)) (k : String) (v : α) :
    mapGet (mapSet m k v) k = some v := by
  induction m with
  | nil => simp [mapSet]
  | cons hd tl ih =>
    obtain ⟨k', v'⟩ := hd
    by_cases h : k' = k <;> simp [mapSet, mapGet, h, ih]

@[simp] theorem mapGet_set_ne (m : List (String × α)) (k k' : String) (v : α)
    (h : k ≠ k') : mapGet (mapSet m k v) k' = mapGet m k' := by
  induction m with
  | nil => simp [mapSet, mapGet, h]
  | cons hd tl ih =>
    obtain ⟨k₀, v₀⟩ := hd
    by_cases h₀ : k₀ = k
    · subst h₀; simp [mapSet, mapGet, h]
    · simp only [mapSet, if_neg h₀, mapGet]
      by_cases h₁ : k₀ = k' <;> simp [h₁, ih]

@[simp] theorem mapGet_delete_ne (m : List (String × α)) (k k' : String)
    (h : k ≠ k') : mapGet (mapDelete m k) k' = mapGet m k' := by
  induction m with
  | nil => simp [mapDelete]
  | cons hd tl ih =>
    obtain ⟨k₀, v₀⟩ := hd
    by_cases h₀ : k₀ = k
    · subst h₀; simp [mapDelete, mapGet, h]
    · simp only [mapDelete, if_neg h₀, mapGet]
      by_cases h₁ : k₀ = k' <;> simp [h₁, ih]

theorem keysNodup_nil : KeysNodup ([] : List (String × α)) := by
  simp [KeysNodup, mapKeys]

theorem mapGet_eq_none_of_not_mem (m : List (String × α)) (k : String)
    (h : k ∉ mapKeys m) : mapGet m k = none := by
  induction m with
  | nil => rfl
  | cons hd tl ih =>
    obtain ⟨k₀, v₀⟩ := hd
    simp only [mapKeys, List.map_cons, List.mem_cons] at h
    push_neg at h
    simp [mapGet, Ne.symm h.1, ih (by simpa [mapKeys] using h.2)]

@[simp] theorem mapGet_delete_self (m : List (String × α)) (k : String)
    (hw : KeysNodup m) : mapGet (mapDelete m k) k = none := by
  induction m with
  | nil => simp [mapDelete]
  | cons hd tl ih =>
    obtain ⟨k₀, v₀⟩ := hd
    simp only [KeysNodup, mapKeys, List.map_cons, List.nodup_cons] at hw
    by_cases h₀ : k₀ = k
    · subst h₀
      simp only [mapDelete, if_pos rfl]
      exact mapGet_eq_none_of_not_mem _ _ hw.1
    · simp only [mapDelete, if_neg h₀, mapGet, if_neg h₀]
      exact ih hw.2

theorem mapKeys_set (m : List (String × α)) (k : String) (v : α) :
    mapKeys (mapSet m k v) = if k ∈ mapKeys m then mapKeys m else mapKeys m ++ [k] := by
  induction m with
  | nil => simp [mapSet, mapKeys]
  | cons hd tl ih =>
    obtain ⟨k₀, v₀⟩ := hd
    by_cases h₀ : k₀ = k
    · subst h₀; simp [mapSet, mapKeys]
    · have hk : k ≠ k₀ := fun h => h₀ h.symm
      simp only [mapSet, if_neg h₀, mapKeys, List.map_cons] at *
      rw [ih]
      by_cases hm : k ∈ List.map Prod.fst tl
      · simp [hm, hk]
      · simp [hm, hk]

theorem keysNodup_set (m : List (String × α)) (k : String) (v : α)
    (hw : KeysNodup m) : KeysNodup (mapSet m k v) := by
  unfold KeysNodup at *
  rw [mapKeys_set]
  by_cases hm : k ∈ mapKeys m
  · simpa [hm] using hw
  · rw [if_neg hm]
    apply List.Nodup.append hw (List.nodup_singleton k)
    intro a ha hak
    simp only [List.mem_singleton] at hak
    subst hak
    exact hm ha

theorem mapKeys_delete_sublist (m : List (String × α)) (k : String) :
    (mapKeys (mapDelete m k)).Sublist (mapKeys m) := by
  induction m with
  | nil => simp [mapDelete]
  | cons hd tl ih =>
    obtain ⟨k₀, v₀⟩ := hd
    by_cases h₀ : k₀ = k
    · subst h₀
      simp only [mapDelete, if_pos rfl, mapKeys, List.map_cons]
      exact (List.sublist_cons_self _ _)
    · simp only [mapDelete, if_neg h₀, mapKeys, List.map_cons]
      exact ih.cons₂ _

theorem keysNodup_delete (m : List (String × α)) (k : String)
    (hw : KeysNodup m) : KeysNodup (mapDelete m k) := by
  exact List.Nodup.sublist (mapKeys_delete_sublist m k) hw

theorem mapSet_ne_nil (m : List (String × α)) (k : String) (v : α) :
    mapSet m k v ≠ [] := by
  cases m with
  | nil => simp [mapSet]
  | cons hd tl =>
    obtain ⟨k₀, v₀⟩ := hd
    by_cases h₀ : k₀ = k <;> simp [mapSet, h₀]

theorem mapGet_mem (m : List (String × α)) (k : String) (v : α)
    (h : mapGet m k = some v) : (k, v) ∈ m := by
  induction m with
  | nil => simp [mapGet] at h
  | cons hd tl ih =>
    obtain ⟨k₀, v₀⟩ := hd
    simp only [mapGet] at h
    by_cases h₀ : k₀ = k
    · rw [if_pos h₀] at h
      injection h with hv
      subst hv
      subst h₀
      exact List.mem_cons_self _ _
    · rw [if_neg h₀] at h
      exact List.mem_cons_of_mem _ (ih h)

theorem mapGet_isSome_iff_mem_keys (m : List (String × α)) (k : String) :
    (mapGet m k).isSome ↔ k ∈ mapKeys m := by
  induction m with
  | nil => simp [mapGet, mapKeys]
  | cons hd tl ih =>
    obtain ⟨k₀, v₀⟩ := hd
    by_cases h₀ : k₀ = k
    · subst h₀; simp [mapGet, mapKeys]
    · have hk : ¬k = k₀ := fun h => h₀ h.symm
      simpa [mapGet, h₀, mapKeys, hk] using ih


theorem dbView_setStatus (db : DB) (mid status mid' : String) :
    dbView (dbSetStatus db mid status) mid' = dbView db mid' := by
  unfold dbSetStatus
  cases h : mapGet db mid with
  | none => rfl
  | some m =>
    unfold dbView
    by_cases e : mid = mid'
    · subst e; rw [mapGet_set_self, h]; rfl
    · rw [mapGet_set_ne _ _ _ _ e]

theorem dbView_setStatusNotes (db : DB) (mid status notes mid' : String) :
    dbView (dbSetStatusNotes db mid status notes) mid' = dbView db mid' := by
  unfold dbSetStatusNotes
  cases h : mapGet db mid with
  | none => rfl
  | some m =>
    unfold dbView
    by_cases e : mid = mid'
    · subst e; rw [mapGet_set_self, h]; rfl
    · rw [mapGet_set_ne _ _ _ _ e]

theorem handleJoinRoom_db_cases {s : ManagerState} {db : DB}
    {sid mid uid un : String} {now : Nat} {s' : ManagerState} {db' : DB}
    {resp : JoinResponse} {effs : List Effect}
    (h : handleJoinRoom s db sid mid uid un now = .ok (s', db', resp, effs)) :
    db' = db ∨ db' = dbSetStatus db mid "ongoing" := by
  unfold handleJoinRoom at h
  split at h
  · exact absurd h (by simp)
  · dsimp only at h
    split at h
    · exact absurd h (by simp)
    · split at h
      · simp only [Except.ok.injEq, Prod.mk.injEq] at h
        exact Or.inr h.2.1.symm
      · simp only [Except.ok.injEq, Prod.mk.injEq] at h
        exact Or.inl h.2.1.symm

theorem removeParticipant_db_cases (dbOk : Bool) (s : ManagerState) (db : DB)
    (sid : String) :
    (removeParticipant dbOk s db sid).2.1 = db ∨
    ∃ mid note, (removeParticipant dbOk s db sid).2.1 =
      dbSetStatusNotes db mid "completed" note := by
  unfold removeParticipant
  cases h1 : mapGet s.participants sid with
  | none => exact Or.inl rfl
  | some entry =>
    cases h2 : mapGet s.rooms entry.roomId with
    | none => exact Or.inl (by simp [h2])
    | some room =>
      by_cases h3 : mapDelete room.participants sid = []
      · cases dbOk with
        | false => exact Or.inl (by simp [h2, h3])
        | true =>
          exact Or.inr ⟨room.meetingId,
            (if 0 < room.chatMessages.length then
              "Meeting completed with " ++ toString room.chatMessages.length ++
                " chat messages"
             else "Meeting completed"),
            by simp [h2, h3]⟩
      · exact Or.inl (by simp [h2, h3])

theorem step_dbView (sd : ManagerState × DB) (ev : SocketEvent) (mid : String) :
    dbView (step sd ev).2 mid = dbView sd.2 mid := by
  cases ev with
  | join sid mid0 uid un =>
    show dbView (onJoinRoom sd.1 sd.2 sid mid0 uid un 0).2.1 mid = dbView sd.2 mid
    unfold onJoinRoom
    cases h : handleJoinRoom sd.1 sd.2 sid mid0 uid un 0 with
    | error e => rfl
    | ok r =>
      obtain ⟨s', db', resp, effs⟩ := r
      rcases handleJoinRoom_db_cases h with h' | h'
      · simp [h']
      · simp [h', dbView_setStatus]
  | leave sid =>
    show dbView (handleLeaveRoom true sd.1 sd.2 sid).2.1 mid = dbView sd.2 mid
    rcases removeParticipant_db_cases true sd.1 sd.2 sid with h | ⟨mid', note, h⟩
    · rw [show handleLeaveRoom = removeParticipant from rfl, h]
    · rw [show handleLeaveRoom = removeParticipant from rfl, h, dbView_setStatusNotes]
  | disconnect sid =>
    show dbView (handleDisconnect true sd.1 sd.2 sid).2.1 mid = dbView sd.2 mid
    rcases removeParticipant_db_cases true sd.1 sd.2 sid with h | ⟨mid', note, h⟩
    · rw [show handleDisconnect = removeParticipant from rfl, h]
    · rw [show handleDisconnect = removeParticipant from rfl, h, dbView_setStatusNotes]
  | offer sid tid d => rfl
  | answer sid tid d => rfl
  | ice sid tid d => rfl
  | toggleAudio sid b => rfl
  | toggleVideo sid b => rfl
  | startShare sid => rfl
  | stopShare sid => rfl
  | chat sid msg mid2 => rfl

theorem foldl_step_dbView (evs : List SocketEvent) (sd : ManagerState × DB)
    (mid : String) :
    dbView (evs.foldl step sd).2 mid = dbView sd.2 mid := by
  induction evs generalizing sd with
  | nil => rfl
  | cons e es ih => rw [List.foldl_cons, ih, step_dbView]

theorem handleJoinRoom_forbidden_of_unauthorized (s : ManagerState) (db : DB)
    (sid mid uid un : String) (now : Nat) (m : MeetingRec)
    (hm : mapGet db mid = some m) (ho : m.organizer ≠ uid)
    (ha : uid ∉ m.attendees) :
    handleJoinRoom s db sid mid uid un now = .error .forbidden := by
  have ho' : (m.organizer == uid) = false := beq_eq_false_iff_ne.mpr ho
  have ha' : m.attendees.contains uid = false := by simpa using ha
  simp [handleJoinRoom, hm, ho', ha', ho, ha]

theorem lastN_length_le (n : Nat) (l : List α) : (lastN n l).length ≤ n := by
  simp [lastN]
  omega

/-- C9: a successful join registers the new connection in the reverse index
under the meeting's room id with default media flags (audio on, video on,
not screen-sharing), and the response carries the room id, the room's
cached title, the full current participant list including the new
participant itself, and the last at-most-50 messages of the room's chat
log. -/
theorem c9_join_success_response (s : ManagerState) (db : DB)
    (socketId meetingId userId userName : String) (now : Nat)
    (s' : ManagerState) (db' : DB) (resp : JoinResponse) (effs : List Effect)
    (h : handleJoinRoom s db socketId meetingId userId userName now =
      .ok (s', db', resp, effs)) :
    ∃ entry, mapGet s'.participants socketId = some entry ∧
      entry.roomId = "meeting_" ++ meetingId ∧
      entry.p.audio = true ∧ entry.p.video = true ∧
      entry.p.isScreenSharing = false ∧
      resp.roomId = "meeting_" ++ meetingId ∧
      (∃ room', mapGet s'.rooms ("meeting_" ++ meetingId) = some room' ∧
        resp.meetingTitle = room'.meetingTitle ∧
        resp.chatMessages = lastN 50 room'.chatMessages ∧
        resp.participants = room'.participants.map (fun kv => projInfo kv.2) ∧
        projInfo entry.p ∈ resp.participants) ∧
      resp.chatMessages.length ≤ 50 := by
  unfold handleJoinRoom at h
  split at h
  · exact absurd h (by simp)
  · dsimp only at h
    split at h
    · exact absurd h (by simp)
    · split at h
      all_goals
        simp only [Except.ok.injEq, Prod.mk.injEq] at h
      all_goals
        obtain ⟨hs, hdb, hresp, heffs⟩ := h
      all_goals
        subst hs
      all_goals
        subst hresp
      all_goals
        refine ⟨_, mapGet_set_self _ _ _, rfl, rfl, rfl, rfl, rfl,
          ⟨_, mapGet_set_self _ _ _, rfl, rfl, rfl, ?_⟩, lastN_length_le _ _⟩
      all_goals
        exact List.mem_map_of_mem _ (mapGet_mem _ _ _ (mapGet_set_self _ _ _))

/-- C9 witness: an organizer's join on a fresh coordinator, with the
resulting registry state and response spelled out in `c9State`, `c9Resp`. -/
theorem c9_join_success_response_witness :
    (∃ entry, mapGet c9State.participants "s1" = some entry ∧
      entry.roomId = "meeting_" ++ "m1" ∧
      entry.p.audio = true ∧ entry.p.video = true ∧
      entry.p.isScreenSharing = false ∧
      c9Resp.roomId = "meeting_" ++ "m1" ∧
      (∃ room', mapGet c9State.rooms ("meeting_" ++ "m1") = some room' ∧
        c9Resp.meetingTitle = room'.meetingTitle ∧
        c9Resp.chatMessages = lastN 50 room'.chatMessages ∧
        c9Resp.participants = room'.participants.map (fun kv => projInfo kv.2) ∧
        projInfo entry.p ∈ c9Resp.participants) ∧
      c9Resp.chatMessages.length ≤ 50) :=
  c9_join_success_response initialState c9Db "s1" "m1" "u1" "Alice" 0
    c9State c9DbAfter c9Resp c9Effs rfl

/-- C2: a join for a nonexistent meeting fails with the not-found error; a
join by a user who is neither the organizer nor a listed attendee fails
with the forbidden error — also after any sequence of other socket events,
since coordinator activity never changes a meeting's organizer or attendee
list. The two error messages are distinguishable, and the error emission of
the join handler goes to the failing socket only, never to anyone else. -/
theorem c2_join_failure_reporting (s : ManagerState) (db : DB) (net : Net)
    (socketId meetingId userId userName : String) (now : Nat) :
    (mapGet db meetingId = none →
      handleJoinRoom s db socketId meetingId userId userName now = .error .notFound ∧
      onJoinRoom s db socketId meetingId userId userName now =
        (s, db, [.emit (.toSelf socketId) "error" (.errorMsg "Meeting not found")])) ∧
    (∀ m, mapGet db meetingId = some m → m.organizer ≠ userId →
      userId ∉ m.attendees →
      handleJoinRoom s db socketId meetingId userId userName now = .error .forbidden ∧
      onJoinRoom s db socketId meetingId userId userName now =
        (s, db, [.emit (.toSelf socketId) "error"
          (.errorMsg "You are not authorized to join this meeting")])) ∧
    joinErrorMessage .notFound ≠ joinErrorMessage .forbidden ∧
    (∀ event payload (d : Delivery),
      d ∈ runDeliveries net [Effect.emit (.toSelf socketId) event payload] →
      d.target = socketId) ∧
    (∀ evs m, mapGet db meetingId = some m → m.organizer ≠ userId →
      userId ∉ m.attendees →
      handleJoinRoom (runEvents db evs).1 (runEvents db evs).2
        socketId meetingId userId userName now = .error .forbidden) := by
  refine ⟨?_, ?_, by decide, ?_, ?_⟩
  · intro h
    constructor
    · simp [handleJoinRoom, h]
    · simp [onJoinRoom, handleJoinRoom, h, joinErrorMessage]
  · intro m hm ho ha
    have hf := handleJoinRoom_forbidden_of_unauthorized s db socketId meetingId
      userId userName now m hm ho ha
    exact ⟨hf, by simp [onJoinRoom, hf, joinErrorMessage]⟩
  · intro event payload d hd
    simp only [runDeliveries, List.map_cons, List.map_nil, effectDeliveries,
      List.flatten_cons, List.flatten_nil, List.append_nil] at hd
    rcases List.mem_map.mp hd with ⟨t, ht, rfl⟩
    simp only [scopeTargets] at ht
    split at ht
    · simpa using ht
    · exact absurd ht (List.not_mem_nil t)
  · intro evs m hm ho ha
    have hv : dbView (runEvents db evs).2 meetingId = some (m.organizer, m.attendees) := by
      rw [show runEvents db evs = (evs.foldl step (initialState, db)) from rfl,
        foldl_step_dbView]
      simp [dbView, hm]
    rcases Option.map_eq_some'.mp hv with ⟨m', hm', hproj⟩
    have ho' : m'.organizer ≠ userId := by
      have : m'.organizer = m.organizer := congrArg Prod.fst hproj
      rw [this]; exact ho
    have ha' : userId ∉ m'.attendees := by
      have : m'.attendees = m.attendees := congrArg Prod.snd hproj
      rw [this]; exact ha
    exact handleJoinRoom_forbidden_of_unauthorized _ _ socketId meetingId
      userId userName now m' hm' ho' ha'

/-- C2 witness: on a one-meeting DB, joining a missing meeting reports
not-found to the caller only, and an uninvited user is forbidden both
immediately and after another user's join. -/
theorem c2_join_failure_reporting_witness :
    (handleJoinRoom initialState
        [("m1", { title := "T", organizer := "u1", attendees := ["u2"],
                  status := "scheduled", notes := "" })]
        "s1" "mX" "u1" "Alice" 0 = .error .notFound) ∧
    (handleJoinRoom initialState
        [("m1", { title := "T", organizer := "u1", attendees := ["u2"],
                  status := "scheduled", notes := "" })]
        "s1" "m1" "u3" "Eve" 0 = .error .forbidden) ∧
    (handleJoinRoom
        (runEvents
          [("m1", { title := "T", organizer := "u1", attendees := ["u2"],
                    status := "scheduled", notes := "" })]
          [SocketEvent.join "s0" "m1" "u1" "Alice"]).1
        (runEvents
          [("m1", { title := "T", organizer := "u1", attendees := ["u2"],
                    status := "scheduled", notes := "" })]
          [SocketEvent.join "s0" "m1" "u1" "Alice"]).2
        "s1" "m1" "u3" "Eve" 0 = .error .forbidden) := by
  refine ⟨?_, ?_, ?_⟩
  · exact ((c2_join_failure_reporting initialState _ { connected := [], groups := [] }
      "s1" "mX" "u1" "Alice" 0).1 (by decide)).1
  · exact ((c2_join_failure_reporting initialState _ { connected := [], groups := [] }
      "s1" "m1" "u3" "Eve" 0).2.1
      { title := "T", organizer := "u1", attendees := ["u2"],
        status := "scheduled", notes := "" }
      (by decide) (by decide) (by decide)).1
  · exact (c2_join_failure_reporting initialState _ { connected := [], groups := [] }
      "s1" "m1" "u3" "Eve" 0).2.2.2.2 [SocketEvent.join "s0" "m1" "u1" "Alice"]
      { title := "T", organizer := "u1", attendees := ["u2"],
        status := "scheduled", notes := "" }
      (by decide) (by decide) (by decide)

/-- C3 counterexample: a relay whose named target is the sender itself,
while that target is connected, delivers the payload to no one — socket.io's
`socket.to(...)` always excludes the sending socket — contradicting the
claim that a relay to a connected target delivers to exactly that
connection. -/
theorem c3_self_target_relay_delivers_nothing :
    (({ connected := ["s1"], groups := [] } : Net).connected.contains "s1" = true) ∧
    runDeliveries { connected := ["s1"], groups := [] }
      (handleOffer initialState "s1" "s1" "sdp-offer").2 = [] := by
  decide

/-- C3 (amended): every relay operation (`offer`, `answer`, `ice-candidate`)
leaves the coordinator state unchanged and raises no error; if the named
target is not connected, nothing is delivered to anyone; if the target is
connected and is a different connection from the sender, the payload is
delivered to exactly that one connection, tagged with the sender's
connection id. -/
theorem c3_relay_targeted_delivery (net : Net) (s : ManagerState)
    (senderId targetId data : String) :
    ((handleOffer s senderId targetId data).1 = s ∧
      (handleAnswer s senderId targetId data).1 = s ∧
      (handleIceCandidate s senderId targetId data).1 = s) ∧
    (net.connected.contains targetId = false →
      runDeliveries net (handleOffer s senderId targetId data).2 = [] ∧
      runDeliveries net (handleAnswer s senderId targetId data).2 = [] ∧
      runDeliveries net (handleIceCandidate s senderId targetId data).2 = []) ∧
    (net.connected.contains targetId = true → targetId ≠ senderId →
      runDeliveries net (handleOffer s senderId targetId data).2 =
        [⟨targetId, "offer", .signal senderId data⟩] ∧
      runDeliveries net (handleAnswer s senderId targetId data).2 =
        [⟨targetId, "answer", .signal senderId data⟩] ∧
      runDeliveries net (handleIceCandidate s senderId targetId data).2 =
        [⟨targetId, "ice-candidate", .signal senderId data⟩]) := by
  refine ⟨⟨rfl, rfl, rfl⟩, ?_, ?_⟩
  · intro h
    have h' : targetId ∉ net.connected := by simpa using h
    simp [handleOffer, handleAnswer, handleIceCandidate, runDeliveries,
      effectDeliveries, scopeTargets, h']
  · intro h hne
    have h' : targetId ∈ net.connected := by simpa using h
    simp [handleOffer, handleAnswer, handleIceCandidate, runDeliveries,
      effectDeliveries, scopeTargets, h', bne_iff_ne, hne]

/-- C3 witness: a relay to a connected distinct target is delivered exactly
to it; a relay to a disconnected target is delivered to no one. -/
theorem c3_relay_targeted_delivery_witness :
    runDeliveries { connected := ["s2"], groups := [] }
      (handleOffer initialState "s1" "s2" "sdp").2 =
      [⟨"s2", "offer", .signal "s1" "sdp"⟩] ∧
    runDeliveries { connected := ["s2"], groups := [] }
      (handleAnswer initialState "s1" "s3" "sdp").2 = [] := by
  constructor
  · exact ((c3_relay_targeted_delivery { connected := ["s2"], groups := [] }
      initialState "s1" "s2" "sdp").2.2 (by decide) (by decide)).1
  · exact ((c3_relay_targeted_delivery { connected := ["s2"], groups := [] }
      initialState "s1" "s3" "sdp").2.1 (by decide)).2.1

/-- C6: an explicit `leave-room` and a transport `disconnect` run the
identical cleanup function, and a leave by a connection registered in no
room is a complete no-op: state, DB and effects are all unchanged. -/
theorem c6_leave_eq_disconnect (s : ManagerState) (db : DB) (socketId : String)
    (dbOk : Bool) (h : mapGet s.participants socketId = none) :
    handleLeaveRoom = handleDisconnect ∧
    handleLeaveRoom dbOk s db socketId = (s, db, []) := by
  refine ⟨rfl, ?_⟩
  simp [handleLeaveRoom, removeParticipant, h]

/-- C6 witness: leaving with an unregistered socket id on the fresh
coordinator changes nothing. -/
theorem c6_leave_eq_disconnect_witness :
    handleLeaveRoom true initialState ([] : DB) "s9" = (initialState, ([] : DB), []) ∧
    handleLeaveRoom = handleDisconnect := by
  have h := c6_leave_eq_disconnect initialState ([] : DB) "s9" true rfl
  exact ⟨h.2, h.1⟩

/-- C8: whether or not the external Meeting update during teardown
succeeds, `removeParticipant` produces the same in-memory state and the
same emissions; a failed update leaves the external DB unchanged. -/
theorem c8_db_failure_does_not_block_cleanup (s : ManagerState) (db : DB)
    (socketId : String) (dbOk : Bool) :
    (removeParticipant dbOk s db socketId).1 = (removeParticipant true s db socketId).1 ∧
    (removeParticipant dbOk s db socketId).2.2 = (removeParticipant true s db socketId).2.2 ∧
    (removeParticipant false s db socketId).2.1 = db := by
  unfold removeParticipant
  cases h1 : mapGet s.participants socketId with
  | none => simp
  | some entry =>
    cases h2 : mapGet s.rooms entry.roomId with
    | none => simp [h2]
    | some room =>
      by_cases h3 : mapDelete room.participants socketId = [] <;>
        simp [h2, h3]

/-! ### C4: chat-log retention cap -/

theorem mem_mapSet (m : List (String × α)) (k : String) (v : α) (x : String × α)
    (h : x ∈ mapSet m k v) : x ∈ m ∨ x = (k, v) := by
  induction m with
  | nil => simpa [mapSet] using h
  | cons hd tl ih =>
    obtain ⟨k₀, v₀⟩ := hd
    by_cases h₀ : k₀ = k
    · subst h₀
      simp only [mapSet, if_pos rfl] at h
      rcases List.mem_cons.mp h with h1 | h1
      · exact Or.inr h1
      · exact Or.inl (List.mem_cons_of_mem _ h1)
    · simp only [mapSet, if_neg h₀] at h
      rcases List.mem_cons.mp h with h1 | h1
      · exact Or.inl (h1 ▸ List.mem_cons_self _ _)
      · rcases ih h1 with h2 | h2
        · exact Or.inl (List.mem_cons_of_mem _ h2)
        · exact Or.inr h2

theorem mapDelete_sublist (m : List (String × α)) (k : String) :
    (mapDelete m k).Sublist m := by
  induction m with
  | nil => simp [mapDelete]
  | cons hd tl ih =>
    obtain ⟨k₀, v₀⟩ := hd
    by_cases h₀ : k₀ = k
    · subst h₀
      simp only [mapDelete, if_pos rfl]
      exact List.sublist_cons_self _ _
    · simp only [mapDelete, if_neg h₀]
      exact ih.cons₂ _

theorem mem_mapDelete (m : List (String × α)) (k : String) (x : String × α)
    (h : x ∈ mapDelete m k) : x ∈ m :=
  (mapDelete_sublist m k).subset h

theorem chatCapped_handleJoinRoom {s : ManagerState} {db : DB}
    {sid mid uid un : String} {now : Nat} {s' : ManagerState} {db' : DB}
    {resp : JoinResponse} {effs : List Effect}
    (h : handleJoinRoom s db sid mid uid un now = .ok (s', db', resp, effs))
    (hc : ChatCapped s) : ChatCapped s' := by
  unfold handleJoinRoom at h
  split at h
  · exact absurd h (by simp)
  · dsimp only at h
    split at h
    · exact absurd h (by simp)
    · split at h
      · simp only [Except.ok.injEq, Prod.mk.injEq] at h
        obtain ⟨hs, -, -, -⟩ := h
        subst hs
        intro rid r hm
        rcases mem_mapSet _ _ _ _ hm with h1 | h1
        · rcases mem_mapSet _ _ _ _ h1 with h2 | h2
          · exact hc _ _ h2
          · simp only [Prod.mk.injEq] at h2
            rw [h2.2]; simp
        · simp only [Prod.mk.injEq] at h1
          rw [h1.2]; simp
      · rename_i room heq
        simp only [Except.ok.injEq, Prod.mk.injEq] at h
        obtain ⟨hs, -, -, -⟩ := h
        subst hs
        intro rid r hm
        rcases mem_mapSet _ _ _ _ hm with h1 | h1
        · exact hc _ _ h1
        · simp only [Prod.mk.injEq] at h1
          rw [h1.2]
          exact hc ("meeting_" ++ mid) room (mapGet_mem _ _ _ heq)

theorem chatCapped_toggleAudio (s : ManagerState) (sid : String) (b : Bool)
    (hc : ChatCapped s) : ChatCapped (handleToggleAudio s sid b).1 := by
  unfold handleToggleAudio
  split
  · exact hc
  · split
    · exact hc
    · split
      · exact hc
      · rename_i x1 entry heq1 x2 room heq2 x3 p heq3
        intro rid r hm
        rcases mem_mapSet _ _ _ _ hm with hmem | hmem
        · exact hc _ _ hmem
        · simp only [Prod.mk.injEq] at hmem
          rw [hmem.2]
          exact hc entry.roomId room (mapGet_mem _ _ _ heq2)

theorem chatCapped_toggleVideo (s : ManagerState) (sid : String) (b : Bool)
    (hc : ChatCapped s) : ChatCapped (handleToggleVideo s sid b).1 := by
  unfold handleToggleVideo
  split
  · exact hc
  · split
    · exact hc
    · split
      · exact hc
      · rename_i x1 entry heq1 x2 room heq2 x3 p heq3
        intro rid r hm
        rcases mem_mapSet _ _ _ _ hm with hmem | hmem
        · exact hc _ _ hmem
        · simp only [Prod.mk.injEq] at hmem
          rw [hmem.2]
          exact hc entry.roomId room (mapGet_mem _ _ _ heq2)

theorem chatCapped_startShare (s : ManagerState) (sid : String)
    (hc : ChatCapped s) : ChatCapped (handleStartScreenShare s sid).1 := by
  unfold handleStartScreenShare
  split
  · exact hc
  · split
    · exact hc
    · split
      · exact hc
      · rename_i x1 entry heq1 x2 room heq2 x3 p heq3
        intro rid r hm
        rcases mem_mapSet _ _ _ _ hm with hmem | hmem
        · exact hc _ _ hmem
        · simp only [Prod.mk.injEq] at hmem
          rw [hmem.2]
          exact hc entry.roomId room (mapGet_mem _ _ _ heq2)

theorem chatCapped_stopShare (s : ManagerState) (sid : String)
    (hc : ChatCapped s) : ChatCapped (handleStopScreenShare s sid).1 := by
  unfold handleStopScreenShare
  split
  · exact hc
  · split
    · exact hc
    · split
      · exact hc
      · rename_i x1 entry heq1 x2 room heq2 x3 p heq3
        intro rid r hm
        rcases mem_mapSet _ _ _ _ hm with hmem | hmem
        · exact hc _ _ hmem
        · simp only [Prod.mk.injEq] at hmem
          rw [hmem.2]
          exact hc entry.roomId room (mapGet_mem _ _ _ heq2)

theorem chatCapped_handleChatMessage (s : ManagerState)
    (sid msg mid2 : String) (now : Nat) (hc : ChatCapped s) :
    ChatCapped (handleChatMessage s sid msg mid2 now).1 := by
  unfold handleChatMessage
  split
  · exact hc
  · split
    · exact hc
    · split
      · exact hc
      · rename_i x1 entry heq1 htrim x2 room heq2
        intro rid r hm
        rcases mem_mapSet _ _ _ _ hm with hmem | hmem
        · exact hc _ _ hmem
        · simp only [Prod.mk.injEq] at hmem
          rw [hmem.2]
          dsimp only
          split
          · exact lastN_length_le 100 _
          · rename_i hlen
            simp only [not_lt] at hlen
            exact hlen

theorem chatCapped_removeParticipant (dbOk : Bool) (s : ManagerState)
    (db : DB) (sid : String) (hc : ChatCapped s) :
    ChatCapped (removeParticipant dbOk s db sid).1 := by
  unfold removeParticipant
  split
  · exact hc
  · split
    · exact hc
    · rename_i x1 entry heq1 x2 room heq2
      dsimp only
      split
      · intro rid r hm
        exact hc _ _ (mem_mapDelete _ _ _ hm)
      · intro rid r hm
        rcases mem_mapSet _ _ _ _ hm with hmem | hmem
        · exact hc _ _ hmem
        · simp only [Prod.mk.injEq] at hmem
          rw [hmem.2]
          exact hc entry.roomId room (mapGet_mem _ _ _ heq2)

theorem chatCapped_step (sd : ManagerState × DB) (ev : SocketEvent)
    (hc : ChatCapped sd.1) : ChatCapped (step sd ev).1 := by
  cases ev with
  | join sid mid uid un =>
    show ChatCapped (onJoinRoom sd.1 sd.2 sid mid uid un 0).1
    unfold onJoinRoom
    cases h : handleJoinRoom sd.1 sd.2 sid mid uid un 0 with
    | error e => exact hc
    | ok r =>
      obtain ⟨s', db', resp, effs⟩ := r
      exact chatCapped_handleJoinRoom h hc
  | offer sid tid d => exact hc
  | answer sid tid d => exact hc
  | ice sid tid d => exact hc
  | toggleAudio sid b => exact chatCapped_toggleAudio sd.1 sid b hc
  | toggleVideo sid b => exact chatCapped_toggleVideo sd.1 sid b hc
  | startShare sid => exact chatCapped_startShare sd.1 sid hc
  | stopShare sid => exact chatCapped_stopShare sd.1 sid hc
  | chat sid msg mid2 => exact chatCapped_handleChatMessage sd.1 sid msg mid2 0 hc
  | leave sid => exact chatCapped_removeParticipant true sd.1 sd.2 sid hc
  | disconnect sid => exact chatCapped_removeParticipant true sd.1 sd.2 sid hc

theorem chatCapped_runEvents (db : DB) (evs : List SocketEvent) :
    ChatCapped (runEvents db evs).1 := by
  have key : ∀ (l : List SocketEvent) (sd : ManagerState × DB),
      ChatCapped sd.1 → ChatCapped (l.foldl step sd).1 := by
    intro l
    induction l with
    | nil => intro sd h; exact h
    | cons e es ih =>
      intro sd h
      exact ih _ (chatCapped_step sd e h)
  exact key evs (initialState, db)
    (by intro rid r hm; simp [initialState] at hm)

/-- C4: over every event sequence every room's chat log stays within the
retention cap of 100, and a message accepted while the log is exactly at
capacity evicts the oldest entry and appends the new message as the newest
entry (FIFO eviction). -/
theorem c4_chat_retention_cap (db : DB) (evs : List SocketEvent)
    (s : ManagerState) (socketId message msgId : String) (now : Nat)
    (entry : ParticipantEntry) (room : Room)
    (hentry : mapGet s.participants socketId = some entry)
    (htrim : ¬ jsTrim message = "")
    (hroom : mapGet s.rooms entry.roomId = some room)
    (hfull : room.chatMessages.length = 100) :
    ChatCapped (runEvents db evs).1 ∧
    mapGet (handleChatMessage s socketId message msgId now).1.rooms entry.roomId =
      some { room with chatMessages :=
        room.chatMessages.tail ++ [mkChatMessage entry message msgId now] } ∧
    (room.chatMessages.tail ++ [mkChatMessage entry message msgId now]).length = 100 ∧
    (room.chatMessages.tail ++ [mkChatMessage entry message msgId now]).getLast? =
      some (mkChatMessage entry message msgId now) := by
  have htail : (room.chatMessages.tail ++
      [mkChatMessage entry message msgId now]).length = 100 := by
    simp [List.length_append, List.length_tail, hfull]
  refine ⟨chatCapped_runEvents db evs, ?_, htail, List.getLast?_concat _⟩
  simp only [handleChatMessage, hentry, hroom, if_neg htrim, mkChatMessage]
  rw [mapGet_set_self]
  congr 1
  congr 1
  rw [if_pos (by simp [hfull])]
  unfold lastN
  simp only [List.length_append, hfull, List.length_cons, List.length_nil]
  norm_num
  rw [← List.drop_one, List.drop_append_of_le_length (by omega), List.drop_one]

/-- C4 witness: appending to a room at the 100-message cap drops the oldest
message and appends the new one, keeping the length at 100. -/
theorem c4_chat_retention_cap_witness :
    mapGet (handleChatMessage c4State "s1" "hello" "id1" 7).1.rooms "meeting_m1" =
      some { c4Room with chatMessages :=
        (List.replicate 100 c4Msg).tail ++
          [mkChatMessage { p := c4P, roomId := "meeting_m1" } "hello" "id1" 7] } ∧
    ((List.replicate 100 c4Msg).tail ++
      [mkChatMessage { p := c4P, roomId := "meeting_m1" } "hello" "id1" 7]).length = 100 := by
  have h := c4_chat_retention_cap [] [] c4State "s1" "hello" "id1" 7
    { p := c4P, roomId := "meeting_m1" } c4Room rfl (by decide) rfl
    (by simp [c4Room])
  exact ⟨h.2.1, h.2.2.1⟩

/-! ### C7: media-flag toggles touch only the caller -/

theorem mem_mapSet_self (m : List (String × α)) (k : String) (v : α) :
    (k, v) ∈ mapSet m k v := by
  induction m with
  | nil => simp [mapSet]
  | cons hd tl ih =>
    obtain ⟨k₀, v₀⟩ := hd
    by_cases h₀ : k₀ = k
    · subst h₀; simp [mapSet]
    · simp only [mapSet, if_neg h₀]
      exact List.mem_cons_of_mem _ ih

/-- C7: toggling audio or video by a room participant updates exactly the
caller's own entry (in the room's map and the reverse index); every other
participant entry, every other room, and the room's chat log are unchanged;
the only effect is one toggle event broadcast to the room excluding the
caller, which reaches every other member of the broadcast room; the new
flag is visible in the next `getRoomStats` snapshot; and a toggle by a
connection that is in no room is a no-op. -/
theorem c7_toggle_frame_effect (s : ManagerState)
    (socketId : String) (v : Bool) (nowMs : Nat)
    (entry : ParticipantEntry) (room : Room) (p : Participant)
    (hentry : mapGet s.participants socketId = some entry)
    (hroom : mapGet s.rooms entry.roomId = some room)
    (hp : mapGet room.participants socketId = some p) :
    (∃ room', mapGet (handleToggleAudio s socketId v).1.rooms entry.roomId = some room' ∧
      mapGet room'.participants socketId = some { p with audio := v } ∧
      room'.chatMessages = room.chatMessages ∧
      (∀ sid', sid' ≠ socketId →
        mapGet room'.participants sid' = mapGet room.participants sid')) ∧
    mapGet (handleToggleAudio s socketId v).1.participants socketId =
      some { entry with p := { entry.p with audio := v } } ∧
    (∀ sid', sid' ≠ socketId →
      mapGet (handleToggleAudio s socketId v).1.participants sid' =
        mapGet s.participants sid') ∧
    (∀ rid, rid ≠ entry.roomId →
      mapGet (handleToggleAudio s socketId v).1.rooms rid = mapGet s.rooms rid) ∧
    (handleToggleAudio s socketId v).2 =
      [.emit (.toRoomExcept socketId entry.roomId) "participant-audio-toggle"
        (.audioToggle socketId v)] ∧
    (∀ net sid', sid' ∈ groupMembers net entry.roomId → sid' ≠ socketId →
      (⟨sid', "participant-audio-toggle", .audioToggle socketId v⟩ : Delivery) ∈
        runDeliveries net (handleToggleAudio s socketId v).2) ∧
    (∃ rs, rs ∈ (getRoomStats (handleToggleAudio s socketId v).1 nowMs).rooms ∧
      rs.roomId = entry.roomId ∧ statsProj { p with audio := v } ∈ rs.participants) ∧
    (∃ room', mapGet (handleToggleVideo s socketId v).1.rooms entry.roomId = some room' ∧
      mapGet room'.participants socketId = some { p with video := v } ∧
      room'.chatMessages = room.chatMessages ∧
      (∀ sid', sid' ≠ socketId →
        mapGet room'.participants sid' = mapGet room.participants sid')) ∧
    mapGet (handleToggleVideo s socketId v).1.participants socketId =
      some { entry with p := { entry.p with video := v } } ∧
    (∀ sid', sid' ≠ socketId →
      mapGet (handleToggleVideo s socketId v).1.participants sid' =
        mapGet s.participants sid') ∧
    (∀ rid, rid ≠ entry.roomId →
      mapGet (handleToggleVideo s socketId v).1.rooms rid = mapGet s.rooms rid) ∧
    (handleToggleVideo s socketId v).2 =
      [.emit (.toRoomExcept socketId entry.roomId) "participant-video-toggle"
        (.videoToggle socketId v)] ∧
    (∀ net sid', sid' ∈ groupMembers net entry.roomId → sid' ≠ socketId →
      (⟨sid', "participant-video-toggle", .videoToggle socketId v⟩ : Delivery) ∈
        runDeliveries net (handleToggleVideo s socketId v).2) ∧
    (∃ rs, rs ∈ (getRoomStats (handleToggleVideo s socketId v).1 nowMs).rooms ∧
      rs.roomId = entry.roomId ∧ statsProj { p with video := v } ∈ rs.participants) ∧
    (∀ (s₀ : ManagerState) (sid₀ : String) (v₀ : Bool),
      mapGet s₀.participants sid₀ = none →
      handleToggleAudio s₀ sid₀ v₀ = (s₀, []) ∧
      handleToggleVideo s₀ sid₀ v₀ = (s₀, [])) := by
  simp only [handleToggleAudio, handleToggleVideo, hentry, hroom, hp]
  refine ⟨⟨_, mapGet_set_self _ _ _, mapGet_set_self _ _ _, rfl, ?_⟩,
    mapGet_set_self _ _ _, ?_, ?_, trivial, ?_, ?_,
    ⟨_, mapGet_set_self _ _ _, mapGet_set_self _ _ _, rfl, ?_⟩,
    mapGet_set_self _ _ _, ?_, ?_, trivial, ?_, ?_, ?_⟩
  · intro sid' hne
    exact mapGet_set_ne _ _ _ _ (fun h => hne h.symm)
  · intro sid' hne
    exact mapGet_set_ne _ _ _ _ (fun h => hne h.symm)
  · intro rid hne
    exact mapGet_set_ne _ _ _ _ (fun h => hne h.symm)
  · intro net sid' hmem hne
    simp only [runDeliveries, List.map_cons, List.map_nil, effectDeliveries,
      List.flatten_cons, List.flatten_nil, List.append_nil, scopeTargets]
    exact List.mem_map_of_mem _ (List.mem_filter.mpr ⟨hmem, by simp [hne]⟩)
  · refine ⟨_, List.mem_map_of_mem _ (mem_mapSet_self s.rooms entry.roomId _), rfl, ?_⟩
    exact List.mem_map_of_mem _ (mem_mapSet_self room.participants socketId _)
  · intro sid' hne
    exact mapGet_set_ne _ _ _ _ (fun h => hne h.symm)
  · intro sid' hne
    exact mapGet_set_ne _ _ _ _ (fun h => hne h.symm)
  · intro rid hne
    exact mapGet_set_ne _ _ _ _ (fun h => hne h.symm)
  · intro net sid' hmem hne
    simp only [runDeliveries, List.map_cons, List.map_nil, effectDeliveries,
      List.flatten_cons, List.flatten_nil, List.append_nil, scopeTargets]
    exact List.mem_map_of_mem _ (List.mem_filter.mpr ⟨hmem, by simp [hne]⟩)
  · refine ⟨_, List.mem_map_of_mem _ (mem_mapSet_self s.rooms entry.roomId _), rfl, ?_⟩
    exact List.mem_map_of_mem _ (mem_mapSet_self room.participants socketId _)
  · intro s₀ sid₀ v₀ h₀
    constructor
    · simp [handleToggleAudio, h₀]
    · simp [handleToggleVideo, h₀]

/-- C7 witness: in a two-participant room, muting `s1` updates `s1`'s own
index entry, the broadcast reaches `s2`, and a toggle by an unregistered
socket is a no-op. -/
theorem c7_toggle_frame_effect_witness :
    mapGet (handleToggleAudio c7State "s1" false).1.participants "s1" =
      some { p := { c7P with audio := false }, roomId := "meeting_m1" } ∧
    (⟨"s2", "participant-audio-toggle", .audioToggle "s1" false⟩ : Delivery) ∈
      runDeliveries { connected := ["s1", "s2"],
                      groups := [("meeting_m1", ["s1", "s2"])] }
        (handleToggleAudio c7State "s1" false).2 ∧
    handleToggleVideo initialState "s9" true = (initialState, []) := by
  have h := c7_toggle_frame_effect c7State "s1" false 0
    { p := c7P, roomId := "meeting_m1" } c7Room c7P rfl rfl rfl
  obtain ⟨-, h2, -, -, -, h6, -, -, -, -, -, -, -, -, hnoop⟩ := h
  exact ⟨h2, h6 _ "s2" (by decide) (by decide),
    (hnoop initialState "s9" true rfl).2⟩

/-! ### C5: organizer-initiated endCall -/

theorem mapGet_of_mem_nodup (m : List (String × α)) (k : String) (v : α)
    (hw : KeysNodup m) (h : (k, v) ∈ m) : mapGet m k = some v := by
  induction m with
  | nil => simp at h
  | cons hd tl ih =>
    obtain ⟨k₀, v₀⟩ := hd
    simp only [KeysNodup, mapKeys, List.map_cons, List.nodup_cons] at hw
    rcases List.mem_cons.mp h with h1 | h1
    · obtain ⟨hk, hv⟩ := Prod.mk.injEq .. ▸ h1
      subst hk; subst hv
      simp [mapGet]
    · have hne : k₀ ≠ k := by
        intro he
        subst he
        exact hw.1 (by simpa [mapKeys] using List.mem_map_of_mem Prod.fst h1)
      simp only [mapGet, if_neg hne]
      exact ih hw.2 h1

theorem mem_mapDelete_key_ne (m : List (String × α)) (k : String)
    (x : String × α) (hw : KeysNodup m) (h : x ∈ mapDelete m k) : x.1 ≠ k := by
  intro he
  have hnd := keysNodup_delete m k hw
  have hg : mapGet (mapDelete m k) x.1 = some x.2 :=
    mapGet_of_mem_nodup _ _ _ hnd (by simpa using h)
  rw [he] at hg
  rw [mapGet_delete_self m k hw] at hg
  exact Option.noConfusion hg

/-- C5: when the organizer ends a call whose room exists, the `call-ended`
notice is broadcast to the whole broadcast room (reaching every current
participant), every connected participant socket is force-closed, the room
is removed from the registry at once — the next `getRoomStats` snapshot no
longer lists it — and the meeting record is marked completed with an
end-of-call annotation appended to its notes. -/
theorem c5_end_call (connected : List String) (s : ManagerState) (db : DB)
    (userId meetingId userName nowStr : String) (nowMs : Nat)
    (meeting : MeetingRec) (room : Room)
    (s' : ManagerState) (db' : DB) (effs : List Effect)
    (hw : KeysNodup s.rooms)
    (hm : mapGet db meetingId = some meeting)
    (horg : meeting.organizer = userId)
    (hroom : mapGet s.rooms ("meeting_" ++ meetingId) = some room)
    (h : endVideoCall connected s db userId meetingId userName nowStr =
      .ok (s', db', effs)) :
    s'.rooms = mapDelete s.rooms ("meeting_" ++ meetingId) ∧
    (∀ rs, rs ∈ (getRoomStats s' nowMs).rooms →
      rs.roomId ≠ "meeting_" ++ meetingId) ∧
    (∀ net, ∀ sid, sid ∈ groupMembers net ("meeting_" ++ meetingId) →
      (⟨sid, "call-ended", .callEnded "The call has been ended by the organizer"
        userName⟩ : Delivery) ∈ runDeliveries net effs) ∧
    (∀ sid, sid ∈ mapKeys room.participants → connected.contains sid = true →
      Effect.forceDisconnect sid ∈ effs) ∧
    mapGet db' meetingId = some { meeting with
      status := "completed",
      notes := meeting.notes ++ "\nCall ended by organizer at " ++ nowStr } := by
  simp only [endVideoCall, hm, horg, hroom, ne_eq, not_true_eq_false,
    if_false, Except.ok.injEq, Prod.mk.injEq] at h
  obtain ⟨hs, hdb, heffs⟩ := h
  subst hs
  subst hdb
  subst heffs
  refine ⟨rfl, ?_, ?_, ?_, by rw [horg]; exact mapGet_set_self _ _ _⟩
  · intro rs hrs
    simp only [getRoomStats, List.mem_map] at hrs
    obtain ⟨kv, hkv, hproj⟩ := hrs
    have := mem_mapDelete_key_ne s.rooms ("meeting_" ++ meetingId) kv hw hkv
    rw [← hproj]
    exact this
  · intro net sid hsid
    simp only [runDeliveries, List.map_cons, effectDeliveries, List.flatten_cons,
      scopeTargets]
    exact List.mem_append_left _ (List.mem_map_of_mem _ hsid)
  · intro sid hsid hc
    refine List.mem_cons_of_mem _ ?_
    refine List.mem_filterMap.mpr ⟨sid, hsid, ?_⟩
    have hc' : sid ∈ connected := by simpa using hc
    simp [hc']

/-- C5 witness: the organizer ends a call with three participants: the
notice reaches `s3`, `s2` is force-closed, the room registry is emptied,
and the meeting record carries the completion annotation. -/
theorem c5_end_call_witness :
    ({ rooms := [], participants := c5State.participants } : ManagerState).rooms =
      mapDelete c5State.rooms ("meeting_" ++ "m1") ∧
    (⟨"s3", "call-ended",
      .callEnded "The call has been ended by the organizer" "Alice"⟩ : Delivery) ∈
      runDeliveries c5Net c5Effs ∧
    Effect.forceDisconnect "s2" ∈ c5Effs ∧
    mapGet c5DbAfter "m1" = some
      { title := "T", organizer := "u1", attendees := ["u2", "u3"],
        status := "completed",
        notes := "N" ++ "\nCall ended by organizer at " ++ "2026" } := by
  have h := c5_end_call ["s1", "s2", "s3"] c5State c5Db "u1" "m1" "Alice" "2026" 0
    { title := "T", organizer := "u1", attendees := ["u2", "u3"],
      status := "ongoing", notes := "N" }
    c5Room { rooms := [], participants := c5State.participants } c5DbAfter c5Effs
    (by unfold KeysNodup; decide) rfl rfl rfl rfl
  exact ⟨h.1, h.2.2.1 c5Net "s3" (by decide), h.2.2.2.1 "s2" (by decide) (by decide),
    h.2.2.2.2⟩

/-! ### C1: room lifecycle -/

theorem mem_mapSet_nodup (m : List (String × α)) (k : String) (v : α)
    (x : String × α) (hw : KeysNodup m) (h : x ∈ mapSet m k v) :
    (x ∈ m ∧ x.1 ≠ k) ∨ x = (k, v) := by
  induction m with
  | nil => exact Or.inr (by simpa [mapSet] using h)
  | cons hd tl ih =>
    obtain ⟨k₀, v₀⟩ := hd
    simp only [KeysNodup, mapKeys, List.map_cons, List.nodup_cons] at hw
    by_cases h₀ : k₀ = k
    · subst h₀
      simp only [mapSet, if_pos rfl] at h
      rcases List.mem_cons.mp h with h1 | h1
      · exact Or.inr h1
      · refine Or.inl ⟨List.mem_cons_of_mem _ h1, ?_⟩
        intro he
        exact hw.1 (he ▸ List.mem_map_of_mem Prod.fst h1)
    · simp only [mapSet, if_neg h₀] at h
      rcases List.mem_cons.mp h with h1 | h1
      · subst h1
        exact Or.inl ⟨List.mem_cons_self _ _, h₀⟩
      · rcases ih hw.2 h1 with ⟨h2, h3⟩ | h2
        · exact Or.inl ⟨List.mem_cons_of_mem _ h2, h3⟩
        · exact Or.inr h2

theorem eq_singleton_of_mapKeys_singleton (l : List (String × α)) (k : String)
    (h : mapKeys l = [k]) : ∃ v, l = [(k, v)] := by
  cases l with
  | nil => simp [mapKeys] at h
  | cons hd tl =>
    obtain ⟨k₀, v₀⟩ := hd
    simp only [mapKeys, List.map_cons, List.cons.injEq] at h
    obtain ⟨hk, htl⟩ := h
    have : tl = [] := List.map_eq_nil_iff.mp htl
    exact ⟨v₀, by rw [hk, this]⟩

theorem roomsInv_handleJoinRoom {s : ManagerState} {db : DB}
    {sid mid uid un : String} {now : Nat} {s' : ManagerState} {db' : DB}
    {resp : JoinResponse} {effs : List Effect}
    (h : handleJoinRoom s db sid mid uid un now = .ok (s', db', resp, effs))
    (hw : KeysNodup s.rooms) (hne : RoomsNonempty s) :
    KeysNodup s'.rooms ∧ RoomsNonempty s' := by
  unfold handleJoinRoom at h
  split at h
  · exact absurd h (by simp)
  · dsimp only at h
    split at h
    · exact absurd h (by simp)
    · split at h
      · simp only [Except.ok.injEq, Prod.mk.injEq] at h
        obtain ⟨hs, -, -, -⟩ := h
        subst hs
        refine ⟨keysNodup_set _ _ _ (keysNodup_set _ _ _ hw), ?_⟩
        intro rid r hm
        rcases mem_mapSet_nodup _ _ _ _ (keysNodup_set _ _ _ hw) hm with ⟨h1, hne1⟩ | h1
        · rcases mem_mapSet_nodup _ _ _ _ hw h1 with ⟨h2, -⟩ | h2
          · exact hne _ _ h2
          · exact absurd (congrArg Prod.fst h2) hne1
        · have : r = _ := congrArg Prod.snd h1
          rw [this]
          exact mapSet_ne_nil _ _ _
      · rename_i room heq
        simp only [Except.ok.injEq, Prod.mk.injEq] at h
        obtain ⟨hs, -, -, -⟩ := h
        subst hs
        refine ⟨keysNodup_set _ _ _ hw, ?_⟩
        intro rid r hm
        rcases mem_mapSet_nodup _ _ _ _ hw hm with ⟨h1, -⟩ | h1
        · exact hne _ _ h1
        · have : r = _ := congrArg Prod.snd h1
          rw [this]
          exact mapSet_ne_nil _ _ _

theorem roomsInv_toggleAudio (s : ManagerState) (sid : String) (b : Bool)
    (hw : KeysNodup s.rooms) (hne : RoomsNonempty s) :
    KeysNodup (handleToggleAudio s sid b).1.rooms ∧
    RoomsNonempty (handleToggleAudio s sid b).1 := by
  unfold handleToggleAudio
  split
  · exact ⟨hw, hne⟩
  · split
    · exact ⟨hw, hne⟩
    · split
      · exact ⟨hw, hne⟩
      · refine ⟨keysNodup_set _ _ _ hw, ?_⟩
        intro rid r hm
        rcases mem_mapSet_nodup _ _ _ _ hw hm with ⟨h1, -⟩ | h1
        · exact hne _ _ h1
        · have : r = _ := congrArg Prod.snd h1
          rw [this]
          exact mapSet_ne_nil _ _ _

theorem roomsInv_toggleVideo (s : ManagerState) (sid : String) (b : Bool)
    (hw : KeysNodup s.rooms) (hne : RoomsNonempty s) :
    KeysNodup (handleToggleVideo s sid b).1.rooms ∧
    RoomsNonempty (handleToggleVideo s sid b).1 := by
  unfold handleToggleVideo
  split
  · exact ⟨hw, hne⟩
  · split
    · exact ⟨hw, hne⟩
    · split
      · exact ⟨hw, hne⟩
      · refine ⟨keysNodup_set _ _ _ hw, ?_⟩
        intro rid r hm
        rcases mem_mapSet_nodup _ _ _ _ hw hm with ⟨h1, -⟩ | h1
        · exact hne _ _ h1
        · have : r = _ := congrArg Prod.snd h1
          rw [this]
          exact mapSet_ne_nil _ _ _

theorem roomsInv_startShare (s : ManagerState) (sid : String)
    (hw : KeysNodup s.rooms) (hne : RoomsNonempty s) :
    KeysNodup (handleStartScreenShare s sid).1.rooms ∧
    RoomsNonempty (handleStartScreenShare s sid).1 := by
  unfold handleStartScreenShare
  split
  · exact ⟨hw, hne⟩
  · split
    · exact ⟨hw, hne⟩
    · split
      · exact ⟨hw, hne⟩
      · refine ⟨keysNodup_set _ _ _ hw, ?_⟩
        intro rid r hm
        rcases mem_mapSet_nodup _ _ _ _ hw hm with ⟨h1, -⟩ | h1
        · exact hne _ _ h1
        · have : r = _ := congrArg Prod.snd h1
          rw [this]
          exact mapSet_ne_nil _ _ _

theorem roomsInv_stopShare (s : ManagerState) (sid : String)
    (hw : KeysNodup s.rooms) (hne : RoomsNonempty s) :
    KeysNodup (handleStopScreenShare s sid).1.rooms ∧
    RoomsNonempty (handleStopScreenShare s sid).1 := by
  unfold handleStopScreenShare
  split
  · exact ⟨hw, hne⟩
  · split
    · exact ⟨hw, hne⟩
    · split
      · exact ⟨hw, hne⟩
      · refine ⟨keysNodup_set _ _ _ hw, ?_⟩
        intro rid r hm
        rcases mem_mapSet_nodup _ _ _ _ hw hm with ⟨h1, -⟩ | h1
        · exact hne _ _ h1
        · have : r = _ := congrArg Prod.snd h1
          rw [this]
          exact mapSet_ne_nil _ _ _

theorem roomsInv_handleChatMessage (s : ManagerState)
    (sid msg mid2 : String) (now : Nat)
    (hw : KeysNodup s.rooms) (hne : RoomsNonempty s) :
    KeysNodup (handleChatMessage s sid msg mid2 now).1.rooms ∧
    RoomsNonempty (handleChatMessage s sid msg mid2 now).1 := by
  unfold handleChatMessage
  split
  · exact ⟨hw, hne⟩
  · split
    · exact ⟨hw, hne⟩
    · split
      · exact ⟨hw, hne⟩
      · rename_i x1 entry heq1 htr x2 room heq2
        refine ⟨keysNodup_set _ _ _ hw, ?_⟩
        intro rid r hm
        rcases mem_mapSet_nodup _ _ _ _ hw hm with ⟨h1, -⟩ | h1
        · exact hne _ _ h1
        · have : r = _ := congrArg Prod.snd h1
          rw [this]
          show room.participants ≠ []
          exact hne _ _ (mapGet_mem _ _ _ heq2)

theorem roomsInv_removeParticipant (dbOk : Bool) (s : ManagerState)
    (db : DB) (sid : String)
    (hw : KeysNodup s.rooms) (hne : RoomsNonempty s) :
    KeysNodup (removeParticipant dbOk s db sid).1.rooms ∧
    RoomsNonempty (removeParticipant dbOk s db sid).1 := by
  unfold removeParticipant
  split
  · exact ⟨hw, hne⟩
  · split
    · exact ⟨hw, hne⟩
    · rename_i x1 entry heq1 x2 room heq2
      dsimp only
      split
      · refine ⟨keysNodup_delete _ _ hw, ?_⟩
        intro rid r hm
        exact hne _ _ (mem_mapDelete _ _ _ hm)
      · rename_i h3
        refine ⟨keysNodup_set _ _ _ hw, ?_⟩
        intro rid r hm
        rcases mem_mapSet_nodup _ _ _ _ hw hm with ⟨h1, -⟩ | h1
        · exact hne _ _ h1
        · have : r = _ := congrArg Prod.snd h1
          rw [this]
          show mapDelete room.participants sid ≠ []
          intro he
          exact h3 (by rw [he]; rfl)

theorem roomsInv_step (sd : ManagerState × DB) (ev : SocketEvent)
    (hw : KeysNodup sd.1.rooms) (hne : RoomsNonempty sd.1) :
    KeysNodup (step sd ev).1.rooms ∧ RoomsNonempty (step sd ev).1 := by
  cases ev with
  | join sid mid uid un =>
    show KeysNodup (onJoinRoom sd.1 sd.2 sid mid uid un 0).1.rooms ∧
      RoomsNonempty (onJoinRoom sd.1 sd.2 sid mid uid un 0).1
    unfold onJoinRoom
    cases h : handleJoinRoom sd.1 sd.2 sid mid uid un 0 with
    | error e => exact ⟨hw, hne⟩
    | ok r =>
      obtain ⟨s', db', resp, effs⟩ := r
      exact roomsInv_handleJoinRoom h hw hne
  | offer sid tid d => exact ⟨hw, hne⟩
  | answer sid tid d => exact ⟨hw, hne⟩
  | ice sid tid d => exact ⟨hw, hne⟩
  | toggleAudio sid b => exact roomsInv_toggleAudio sd.1 sid b hw hne
  | toggleVideo sid b => exact roomsInv_toggleVideo sd.1 sid b hw hne
  | startShare sid => exact roomsInv_startShare sd.1 sid hw hne
  | stopShare sid => exact roomsInv_stopShare sd.1 sid hw hne
  | chat sid msg mid2 => exact roomsInv_handleChatMessage sd.1 sid msg mid2 0 hw hne
  | leave sid => exact roomsInv_removeParticipant true sd.1 sd.2 sid hw hne
  | disconnect sid => exact roomsInv_removeParticipant true sd.1 sd.2 sid hw hne

theorem roomsInv_runEvents (db : DB) (evs : List SocketEvent) :
    KeysNodup (runEvents db evs).1.rooms ∧ RoomsNonempty (runEvents db evs).1 := by
  have key : ∀ (l : List SocketEvent) (sd : ManagerState × DB),
      KeysNodup sd.1.rooms → RoomsNonempty sd.1 →
      KeysNodup (l.foldl step sd).1.rooms ∧ RoomsNonempty (l.foldl step sd).1 := by
    intro l
    induction l with
    | nil => intro sd h1 h2; exact ⟨h1, h2⟩
    | cons e es ih =>
      intro sd h1 h2
      obtain ⟨h1', h2'⟩ := roomsInv_step sd e h1 h2
      exact ih _ h1' h2'
  exact key evs (initialState, db) keysNodup_nil
    (by intro rid r hm; simp [initialState] at hm)

/-- C1: (i) after any sequence of socket events from a fresh coordinator, a
room is registered if and only if its participant count is positive; (ii) a
successful join that finds no room creates one and marks the external
record's status "ongoing"; (iii) the leave of a room's only remaining
participant removes exactly that room, removes the leaver's index entry,
and emits exactly one external status update — status "completed" with a
chat-message-count note. -/
theorem c1_room_lifecycle (db : DB) (evs : List SocketEvent) (roomKey : String)
    (s : ManagerState) (db₀ : DB) (socketId meetingId userId userName : String)
    (now : Nat) (dbOk : Bool) (entry : ParticipantEntry) (room : Room) :
    (mapHas (runEvents db evs).1.rooms roomKey = true ↔
      0 < roomParticipantCount (runEvents db evs).1 roomKey) ∧
    (mapGet s.rooms ("meeting_" ++ meetingId) = none →
      ∀ s' db' resp effs,
        handleJoinRoom s db₀ socketId meetingId userId userName now =
          .ok (s', db', resp, effs) →
        mapHas s'.rooms ("meeting_" ++ meetingId) = true ∧
        (mapGet db' meetingId).map MeetingRec.status = some "ongoing") ∧
    (mapGet s.participants socketId = some entry →
      mapGet s.rooms entry.roomId = some room →
      mapKeys room.participants = [socketId] →
      (removeParticipant dbOk s db₀ socketId).1.rooms =
        mapDelete s.rooms entry.roomId ∧
      (removeParticipant dbOk s db₀ socketId).1.participants =
        mapDelete s.participants socketId ∧
      (removeParticipant dbOk s db₀ socketId).2.2 =
        [Effect.emit (.toRoomExcept socketId entry.roomId) "user-left"
            (.left socketId entry.p.userName),
          Effect.meetingUpdate room.meetingId "completed" (some
            (if room.chatMessages.length > 0
             then "Meeting completed with " ++ toString room.chatMessages.length ++
               " chat messages"
             else "Meeting completed"))] ∧
      ((removeParticipant dbOk s db₀ socketId).2.2.countP (fun e =>
          match e with
          | Effect.meetingUpdate _ _ _ => true
          | _ => false)) = 1) := by
  obtain ⟨hw, hne⟩ := roomsInv_runEvents db evs
  refine ⟨?_, ?_, ?_⟩
  · unfold mapHas roomParticipantCount
    cases hg : mapGet (runEvents db evs).1.rooms roomKey with
    | none => simp
    | some r =>
      simp only [Option.isSome_some, true_iff]
      exact List.length_pos.mpr (hne _ _ (mapGet_mem _ _ _ hg))
  · intro hnone s' db' resp effs h
    unfold handleJoinRoom at h
    split at h
    · exact absurd h (by simp)
    · rename_i meeting hdb
      dsimp only at h
      split at h
      · exact absurd h (by simp)
      · split at h
        · simp only [Except.ok.injEq, Prod.mk.injEq] at h
          obtain ⟨hs, hdb', -, -⟩ := h
          subst hs
          subst hdb'
          constructor
          · simp [mapHas]
          · simp [dbSetStatus, hdb]
        · rename_i r heq
          rw [hnone] at heq
          exact absurd heq (by simp)
  · intro hentry hroom hsolo
    obtain ⟨p, hp⟩ := eq_singleton_of_mapKeys_singleton _ _ hsolo
    have hdel : mapDelete room.participants socketId = [] := by
      rw [hp]
      simp [mapDelete]
    simp only [removeParticipant, hentry, hroom, hdel, List.length_nil,
      if_pos rfl]
    exact ⟨rfl, rfl, rfl, rfl⟩

/-- C1 witness: after one organizer join the room-existence/participant
equivalence holds for the created room; the first join created the room and
marked the meeting ongoing; and the sole participant's leave tears the room
down with exactly one external status update. -/
theorem c1_room_lifecycle_witness :
    (mapHas (runEvents c9Db [SocketEvent.join "s1" "m1" "u1" "Alice"]).1.rooms
        "meeting_m1" = true ↔
      0 < roomParticipantCount
        (runEvents c9Db [SocketEvent.join "s1" "m1" "u1" "Alice"]).1
        "meeting_m1") ∧
    (mapHas c9State.rooms ("meeting_" ++ "m1") = true ∧
      (mapGet c9DbAfter "m1").map MeetingRec.status = some "ongoing") ∧
    ((removeParticipant true c4State ([] : DB) "s1").1.rooms =
        mapDelete c4State.rooms "meeting_m1" ∧
      (removeParticipant true c4State ([] : DB) "s1").1.participants =
        mapDelete c4State.participants "s1" ∧
      (removeParticipant true c4State ([] : DB) "s1").2.2.countP (fun e =>
          match e with
          | Effect.meetingUpdate _ _ _ => true
          | _ => false) = 1) := by
  have hjoin := c1_room_lifecycle c9Db [SocketEvent.join "s1" "m1" "u1" "Alice"]
    "meeting_m1" initialState c9Db "s1" "m1" "u1" "Alice" 0 true
    { p := c9P, roomId := "meeting_m1" } c7Room
  have hleave := (c1_room_lifecycle c9Db [] "meeting_m1" c4State ([] : DB)
    "s1" "m1" "u1" "Alice" 0 true { p := c4P, roomId := "meeting_m1" }
    c4Room).2.2 rfl rfl rfl
  refine ⟨hjoin.1, ?_, hleave.1, hleave.2.1, hleave.2.2.2⟩
  exact hjoin.2.1 rfl c9State c9DbAfter c9Resp c9Effs rfl

/-! ### C10: reverse-index coherence -/

theorem coherent_toggleAudio (s : ManagerState) (sid : String) (b : Bool)
    (hwf : StateWF s) (hco : Coherent s) :
    StateWF (handleToggleAudio s sid b).1 ∧
    Coherent (handleToggleAudio s sid b).1 := by
  obtain ⟨hwr, hwp, hwroom⟩ := hwf
  obtain ⟨hfw, hbk⟩ := hco
  unfold handleToggleAudio
  split
  · exact ⟨⟨hwr, hwp, hwroom⟩, hfw, hbk⟩
  · split
    · exact ⟨⟨hwr, hwp, hwroom⟩, hfw, hbk⟩
    · split
      · exact ⟨⟨hwr, hwp, hwroom⟩, hfw, hbk⟩
      · rename_i x1 entry heq1 x2 room heq2 x3 p heq3
        refine ⟨⟨keysNodup_set _ _ _ hwr, keysNodup_set _ _ _ hwp, ?_⟩, ?_, ?_⟩
        · intro rid r hm
          rcases mem_mapSet_nodup _ _ _ _ hwr hm with ⟨h1, -⟩ | h1
          · exact hwroom _ _ h1
          · have : r = _ := congrArg Prod.snd h1
            rw [this]
            exact keysNodup_set _ _ _ (hwroom _ _ (mapGet_mem _ _ _ heq2))
        · intro sid' e' he'
          by_cases hs' : sid' = sid
          · subst hs'
            rw [mapGet_set_self] at he'
            injection he' with he''
            subst he''
            obtain ⟨r0, hr0, p0, hp0, hfl⟩ := hfw sid' entry heq1
            rw [heq2] at hr0
            injection hr0 with hr0e
            subst hr0e
            rw [heq3] at hp0
            injection hp0 with hp0e
            subst hp0e
            exact ⟨_, mapGet_set_self _ _ _, _, mapGet_set_self _ _ _,
              rfl, hfl.2.1, hfl.2.2⟩
          · rw [mapGet_set_ne _ _ _ _ (fun h => hs' h.symm)] at he'
            obtain ⟨r0, hr0, p0, hp0, hfl⟩ := hfw sid' e' he'
            by_cases hrid : e'.roomId = entry.roomId
            · rw [hrid] at hr0 ⊢
              rw [heq2] at hr0
              injection hr0 with hr0e
              subst hr0e
              refine ⟨_, mapGet_set_self _ _ _, p0, ?_, hfl⟩
              rw [mapGet_set_ne _ _ _ _ (fun h => hs' h.symm)]
              exact hp0
            · rw [mapGet_set_ne _ _ _ _ (fun h => hrid h.symm)]
              exact ⟨r0, hr0, p0, hp0, hfl⟩
        · intro rid r' sid'' hr' hsome
          by_cases hrid : rid = entry.roomId
          · subst hrid
            rw [mapGet_set_self] at hr'
            injection hr' with hr'e
            subst hr'e
            by_cases hs'' : sid'' = sid
            · subst hs''
              exact ⟨_, mapGet_set_self _ _ _, rfl⟩
            · rw [mapGet_set_ne _ _ _ _ (fun h => hs'' h.symm)] at hsome
              obtain ⟨e, he, hride⟩ := hbk _ room sid'' heq2 hsome
              refine ⟨e, ?_, hride⟩
              rw [mapGet_set_ne _ _ _ _ (fun h => hs'' h.symm)]
              exact he
          · rw [mapGet_set_ne _ _ _ _ (fun h => hrid h.symm)] at hr'
            obtain ⟨e, he, hride⟩ := hbk rid r' sid'' hr' hsome
            by_cases hs'' : sid'' = sid
            · subst hs''
              rw [heq1] at he
              injection he with hee
              subst hee
              exact absurd hride.symm hrid
            · refine ⟨e, ?_, hride⟩
              rw [mapGet_set_ne _ _ _ _ (fun h => hs'' h.symm)]
              exact he

theorem coherent_toggleVideo (s : ManagerState) (sid : String) (b : Bool)
    (hwf : StateWF s) (hco : Coherent s) :
    StateWF (handleToggleVideo s sid b).1 ∧
    Coherent (handleToggleVideo s sid b).1 := by
  obtain ⟨hwr, hwp, hwroom⟩ := hwf
  obtain ⟨hfw, hbk⟩ := hco
  unfold handleToggleVideo
  split
  · exact ⟨⟨hwr, hwp, hwroom⟩, hfw, hbk⟩
  · split
    · exact ⟨⟨hwr, hwp, hwroom⟩, hfw, hbk⟩
    · split
      · exact ⟨⟨hwr, hwp, hwroom⟩, hfw, hbk⟩
      · rename_i x1 entry heq1 x2 room heq2 x3 p heq3
        refine ⟨⟨keysNodup_set _ _ _ hwr, keysNodup_set _ _ _ hwp, ?_⟩, ?_, ?_⟩
        · intro rid r hm
          rcases mem_mapSet_nodup _ _ _ _ hwr hm with ⟨h1, -⟩ | h1
          · exact hwroom _ _ h1
          · have : r = _ := congrArg Prod.snd h1
            rw [this]
            exact keysNodup_set _ _ _ (hwroom _ _ (mapGet_mem _ _ _ heq2))
        · intro sid' e' he'
          by_cases hs' : sid' = sid
          · subst hs'
            rw [mapGet_set_self] at he'
            injection he' with he''
            subst he''
            obtain ⟨r0, hr0, p0, hp0, hfl⟩ := hfw sid' entry heq1
            rw [heq2] at hr0
            injection hr0 with hr0e
            subst hr0e
            rw [heq3] at hp0
            injection hp0 with hp0e
            subst hp0e
            exact ⟨_, mapGet_set_self _ _ _, _, mapGet_set_self _ _ _,
              hfl.1, rfl, hfl.2.2⟩
          · rw [mapGet_set_ne _ _ _ _ (fun h => hs' h.symm)] at he'
            obtain ⟨r0, hr0, p0, hp0, hfl⟩ := hfw sid' e' he'
            by_cases hrid : e'.roomId = entry.roomId
            · rw [hrid] at hr0 ⊢
              rw [heq2] at hr0
              injection hr0 with hr0e
              subst hr0e
              refine ⟨_, mapGet_set_self _ _ _, p0, ?_, hfl⟩
              rw [mapGet_set_ne _ _ _ _ (fun h => hs' h.symm)]
              exact hp0
            · rw [mapGet_set_ne _ _ _ _ (fun h => hrid h.symm)]
              exact ⟨r0, hr0, p0, hp0, hfl⟩
        · intro rid r' sid'' hr' hsome
          by_cases hrid : rid = entry.roomId
          · subst hrid
            rw [mapGet_set_self] at hr'
            injection hr' with hr'e
            subst hr'e
            by_cases hs'' : sid'' = sid
            · subst hs''
              exact ⟨_, mapGet_set_self _ _ _, rfl⟩
            · rw [mapGet_set_ne _ _ _ _ (fun h => hs'' h.symm)] at hsome
              obtain ⟨e, he, hride⟩ := hbk _ room sid'' heq2 hsome
              refine ⟨e, ?_, hride⟩
              rw [mapGet_set_ne _ _ _ _ (fun h => hs'' h.symm)]
              exact he
          · rw [mapGet_set_ne _ _ _ _ (fun h => hrid h.symm)] at hr'
            obtain ⟨e, he, hride⟩ := hbk rid r' sid'' hr' hsome
            by_cases hs'' : sid'' = sid
            · subst hs''
              rw [heq1] at he
              injection he with hee
              subst hee
              exact absurd hride.symm hrid
            · refine ⟨e, ?_, hride⟩
              rw [mapGet_set_ne _ _ _ _ (fun h => hs'' h.symm)]
              exact he

theorem coherent_startShare (s : ManagerState) (sid : String)
    (hwf : StateWF s) (hco : Coherent s) :
    StateWF (handleStartScreenShare s sid).1 ∧
    Coherent (handleStartScreenShare s sid).1 := by
  obtain ⟨hwr, hwp, hwroom⟩ := hwf
  obtain ⟨hfw, hbk⟩ := hco
  unfold handleStartScreenShare
  split
  · exact ⟨⟨hwr, hwp, hwroom⟩, hfw, hbk⟩
  · split
    · exact ⟨⟨hwr, hwp, hwroom⟩, hfw, hbk⟩
    · split
      · exact ⟨⟨hwr, hwp, hwroom⟩, hfw, hbk⟩
      · rename_i x1 entry heq1 x2 room heq2 x3 p heq3
        refine ⟨⟨keysNodup_set _ _ _ hwr, keysNodup_set _ _ _ hwp, ?_⟩, ?_, ?_⟩
        · intro rid r hm
          rcases mem_mapSet_nodup _ _ _ _ hwr hm with ⟨h1, -⟩ | h1
          · exact hwroom _ _ h1
          · have : r = _ := congrArg Prod.snd h1
            rw [this]
            exact keysNodup_set _ _ _ (hwroom _ _ (mapGet_mem _ _ _ heq2))
        · intro sid' e' he'
          by_cases hs' : sid' = sid
          · subst hs'
            rw [mapGet_set_self] at he'
            injection he' with he''
            subst he''
            obtain ⟨r0, hr0, p0, hp0, hfl⟩ := hfw sid' entry heq1
            rw [heq2] at hr0
            injection hr0 with hr0e
            subst hr0e
            rw [heq3] at hp0
            injection hp0 with hp0e
            subst hp0e
            exact ⟨_, mapGet_set_self _ _ _, _, mapGet_set_self _ _ _,
              hfl.1, hfl.2.1, rfl⟩
          · rw [mapGet_set_ne _ _ _ _ (fun h => hs' h.symm)] at he'
            obtain ⟨r0, hr0, p0, hp0, hfl⟩ := hfw sid' e' he'
            by_cases hrid : e'.roomId = entry.roomId
            · rw [hrid] at hr0 ⊢
              rw [heq2] at hr0
              injection hr0 with hr0e
              subst hr0e
              refine ⟨_, mapGet_set_self _ _ _, p0, ?_, hfl⟩
              rw [mapGet_set_ne _ _ _ _ (fun h => hs' h.symm)]
              exact hp0
            · rw [mapGet_set_ne _ _ _ _ (fun h => hrid h.symm)]
              exact ⟨r0, hr0, p0, hp0, hfl⟩
        · intro rid r' sid'' hr' hsome
          by_cases hrid : rid = entry.roomId
          · subst hrid
            rw [mapGet_set_self] at hr'
            injection hr' with hr'e
            subst hr'e
            by_cases hs'' : sid'' = sid
            · subst hs''
              exact ⟨_, mapGet_set_self _ _ _, rfl⟩
            · rw [mapGet_set_ne _ _ _ _ (fun h => hs'' h.symm)] at hsome
              obtain ⟨e, he, hride⟩ := hbk _ room sid'' heq2 hsome
              refine ⟨e, ?_, hride⟩
              rw [mapGet_set_ne _ _ _ _ (fun h => hs'' h.symm)]
              exact he
          · rw [mapGet_set_ne _ _ _ _ (fun h => hrid h.symm)] at hr'
            obtain ⟨e, he, hride⟩ := hbk rid r' sid'' hr' hsome
            by_cases hs'' : sid'' = sid
            · subst hs''
              rw [heq1] at he
              injection he with hee
              subst hee
              exact absurd hride.symm hrid
            · refine ⟨e, ?_, hride⟩
              rw [mapGet_set_ne _ _ _ _ (fun h => hs'' h.symm)]
              exact he

theorem coherent_stopShare (s : ManagerState) (sid : String)
    (hwf : StateWF s) (hco : Coherent s) :
    StateWF (handleStopScreenShare s sid).1 ∧
    Coherent (handleStopScreenShare s sid).1 := by
  obtain ⟨hwr, hwp, hwroom⟩ := hwf
  obtain ⟨hfw, hbk⟩ := hco
  unfold handleStopScreenShare
  split
  · exact ⟨⟨hwr, hwp, hwroom⟩, hfw, hbk⟩
  · split
    · exact ⟨⟨hwr, hwp, hwroom⟩, hfw, hbk⟩
    · split
      · exact ⟨⟨hwr, hwp, hwroom⟩, hfw, hbk⟩
      · rename_i x1 entry heq1 x2 room heq2 x3 p heq3
        refine ⟨⟨keysNodup_set _ _ _ hwr, keysNodup_set _ _ _ hwp, ?_⟩, ?_, ?_⟩
        · intro rid r hm
          rcases mem_mapSet_nodup _ _ _ _ hwr hm with ⟨h1, -⟩ | h1
          · exact hwroom _ _ h1
          · have : r = _ := congrArg Prod.snd h1
            rw [this]
            exact keysNodup_set _ _ _ (hwroom _ _ (mapGet_mem _ _ _ heq2))
        · intro sid' e' he'
          by_cases hs' : sid' = sid
          · subst hs'
            rw [mapGet_set_self] at he'
            injection he' with he''
            subst he''
            obtain ⟨r0, hr0, p0, hp0, hfl⟩ := hfw sid' entry heq1
            rw [heq2] at hr0
            injection hr0 with hr0e
            subst hr0e
            rw [heq3] at hp0
            injection hp0 with hp0e
            subst hp0e
            exact ⟨_, mapGet_set_self _ _ _, _, mapGet_set_self _ _ _,
              hfl.1, hfl.2.1, rfl⟩
          · rw [mapGet_set_ne _ _ _ _ (fun h => hs' h.symm)] at he'
            obtain ⟨r0, hr0, p0, hp0, hfl⟩ := hfw sid' e' he'
            by_cases hrid : e'.roomId = entry.roomId
            · rw [hrid] at hr0 ⊢
              rw [heq2] at hr0
              injection hr0 with hr0e
              subst hr0e
              refine ⟨_, mapGet_set_self _ _ _, p0, ?_, hfl⟩
              rw [mapGet_set_ne _ _ _ _ (fun h => hs' h.symm)]
              exact hp0
            · rw [mapGet_set_ne _ _ _ _ (fun h => hrid h.symm)]
              exact ⟨r0, hr0, p0, hp0, hfl⟩
        · intro rid r' sid'' hr' hsome
          by_cases hrid : rid = entry.roomId
          · subst hrid
            rw [mapGet_set_self] at hr'
            injection hr' with hr'e
            subst hr'e
            by_cases hs'' : sid'' = sid
            · subst hs''
              exact ⟨_, mapGet_set_self _ _ _, rfl⟩
            · rw [mapGet_set_ne _ _ _ _ (fun h => hs'' h.symm)] at hsome
              obtain ⟨e, he, hride⟩ := hbk _ room sid'' heq2 hsome
              refine ⟨e, ?_, hride⟩
              rw [mapGet_set_ne _ _ _ _ (fun h => hs'' h.symm)]
              exact he
          · rw [mapGet_set_ne _ _ _ _ (fun h => hrid h.symm)] at hr'
            obtain ⟨e, he, hride⟩ := hbk rid r' sid'' hr' hsome
            by_cases hs'' : sid'' = sid
            · subst hs''
              rw [heq1] at he
              injection he with hee
              subst hee
              exact absurd hride.symm hrid
            · refine ⟨e, ?_, hride⟩
              rw [mapGet_set_ne _ _ _ _ (fun h => hs'' h.symm)]
              exact he

theorem coherent_handleChatMessage (s : ManagerState)
    (sid msg mid2 : String) (now : Nat)
    (hwf : StateWF s) (hco : Coherent s) :
    StateWF (handleChatMessage s sid msg mid2 now).1 ∧
    Coherent (handleChatMessage s sid msg mid2 now).1 := by
  obtain ⟨hwr, hwp, hwroom⟩ := hwf
  obtain ⟨hfw, hbk⟩ := hco
  unfold handleChatMessage
  split
  · exact ⟨⟨hwr, hwp, hwroom⟩, hfw, hbk⟩
  · split
    · exact ⟨⟨hwr, hwp, hwroom⟩, hfw, hbk⟩
    · split
      · exact ⟨⟨hwr, hwp, hwroom⟩, hfw, hbk⟩
      · rename_i x1 entry heq1 htrim x2 room heq2
        refine ⟨⟨keysNodup_set _ _ _ hwr, hwp, ?_⟩, ?_, ?_⟩
        · intro rid r hm
          rcases mem_mapSet_nodup _ _ _ _ hwr hm with ⟨h1, -⟩ | h1
          · exact hwroom _ _ h1
          · have : r = _ := congrArg Prod.snd h1
            rw [this]
            show KeysNodup room.participants
            exact hwroom _ _ (mapGet_mem _ _ _ heq2)
        · intro sid' e' he'
          obtain ⟨r0, hr0, p0, hp0, hfl⟩ := hfw sid' e' he'
          by_cases hrid : e'.roomId = entry.roomId
          · rw [hrid] at hr0 ⊢
            rw [heq2] at hr0
            injection hr0 with hr0e
            subst hr0e
            exact ⟨_, mapGet_set_self _ _ _, p0, hp0, hfl⟩
          · rw [mapGet_set_ne _ _ _ _ (fun h => hrid h.symm)]
            exact ⟨r0, hr0, p0, hp0, hfl⟩
        · intro rid r' sid'' hr' hsome
          by_cases hrid : rid = entry.roomId
          · subst hrid
            rw [mapGet_set_self] at hr'
            injection hr' with hr'e
            subst hr'e
            exact hbk _ room sid'' heq2 hsome
          · rw [mapGet_set_ne _ _ _ _ (fun h => hrid h.symm)] at hr'
            exact hbk rid r' sid'' hr' hsome

theorem eq_nil_or_singleton_of_mapDelete_eq_nil (l : List (String × α))
    (k : String) (h : mapDelete l k = []) : l = [] ∨ ∃ v, l = [(k, v)] := by
  cases l with
  | nil => exact Or.inl rfl
  | cons hd tl =>
    obtain ⟨k₀, v₀⟩ := hd
    by_cases h₀ : k₀ = k
    · subst h₀
      simp only [mapDelete, if_pos rfl] at h
      subst h
      exact Or.inr ⟨v₀, rfl⟩
    · simp only [mapDelete, if_neg h₀] at h
      exact absurd h (by simp)

theorem coherent_removeParticipant (dbOk : Bool) (s : ManagerState) (db : DB)
    (sid : String) (hwf : StateWF s) (hco : Coherent s) :
    StateWF (removeParticipant dbOk s db sid).1 ∧
    Coherent (removeParticipant dbOk s db sid).1 := by
  obtain ⟨hwr, hwp, hwroom⟩ := hwf
  obtain ⟨hfw, hbk⟩ := hco
  unfold removeParticipant
  split
  · exact ⟨⟨hwr, hwp, hwroom⟩, hfw, hbk⟩
  · split
    · rename_i x1 entry heq1 x2 heq2
      refine ⟨⟨hwr, keysNodup_delete _ _ hwp, hwroom⟩, ?_, ?_⟩
      · intro sid' e' he'
        by_cases hs' : sid' = sid
        · subst hs'
          rw [mapGet_delete_self _ _ hwp] at he'
          exact absurd he' (by simp)
        · rw [mapGet_delete_ne _ _ _ (fun h => hs' h.symm)] at he'
          exact hfw sid' e' he'
      · intro rid r' sid'' hr' hsome
        obtain ⟨e, he, hride⟩ := hbk rid r' sid'' hr' hsome
        by_cases hs'' : sid'' = sid
        · subst hs''
          rw [heq1] at he
          injection he with hee
          subst hee
          rw [← hride] at hr'
          rw [heq2] at hr'
          exact absurd hr' (by simp)
        · refine ⟨e, ?_, hride⟩
          rw [mapGet_delete_ne _ _ _ (fun h => hs'' h.symm)]
          exact he
    · rename_i x1 entry heq1 x2 room heq2
      dsimp only
      split
      · rename_i hdel
        have hdel' : mapDelete room.participants sid = [] :=
          List.length_eq_zero.mp hdel
        refine ⟨⟨keysNodup_delete _ _ hwr, keysNodup_delete _ _ hwp, ?_⟩, ?_, ?_⟩
        · intro rid r hm
          exact hwroom _ _ (mem_mapDelete _ _ _ hm)
        · intro sid' e' he'
          by_cases hs' : sid' = sid
          · subst hs'
            rw [mapGet_delete_self _ _ hwp] at he'
            exact absurd he' (by simp)
          · rw [mapGet_delete_ne _ _ _ (fun h => hs' h.symm)] at he'
            obtain ⟨r0, hr0, p0, hp0, hfl⟩ := hfw sid' e' he'
            by_cases hrid : e'.roomId = entry.roomId
            · rw [hrid] at hr0
              rw [heq2] at hr0
              injection hr0 with hr0e
              subst hr0e
              rcases eq_nil_or_singleton_of_mapDelete_eq_nil _ _ hdel' with hnil | ⟨v, hsingle⟩
              · rw [hnil] at hp0
                exact absurd hp0 (by simp [mapGet])
              · rw [hsingle] at hp0
                simp only [mapGet] at hp0
                rw [if_neg (fun h => hs' h.symm)] at hp0
                exact absurd hp0 (by simp)
            · refine ⟨r0, ?_, p0, hp0, hfl⟩
              rw [mapGet_delete_ne _ _ _ (fun h => hrid h.symm)]
              exact hr0
        · intro rid r' sid'' hr' hsome
          by_cases hridk : rid = entry.roomId
          · subst hridk
            rw [mapGet_delete_self _ _ hwr] at hr'
            exact absurd hr' (by simp)
          · rw [mapGet_delete_ne _ _ _ (fun h => hridk h.symm)] at hr'
            obtain ⟨e, he, hride⟩ := hbk rid r' sid'' hr' hsome
            by_cases hs'' : sid'' = sid
            · subst hs''
              rw [heq1] at he
              injection he with hee
              subst hee
              exact absurd hride.symm hridk
            · refine ⟨e, ?_, hride⟩
              rw [mapGet_delete_ne _ _ _ (fun h => hs'' h.symm)]
              exact he
      · rename_i hdel
        refine ⟨⟨keysNodup_set _ _ _ hwr, keysNodup_delete _ _ hwp, ?_⟩, ?_, ?_⟩
        · intro rid r hm
          rcases mem_mapSet_nodup _ _ _ _ hwr hm with ⟨h1, -⟩ | h1
          · exact hwroom _ _ h1
          · have : r = _ := congrArg Prod.snd h1
            rw [this]
            show KeysNodup (mapDelete room.participants sid)
            exact keysNodup_delete _ _ (hwroom _ _ (mapGet_mem _ _ _ heq2))
        · intro sid' e' he'
          by_cases hs' : sid' = sid
          · subst hs'
            rw [mapGet_delete_self _ _ hwp] at he'
            exact absurd he' (by simp)
          · rw [mapGet_delete_ne _ _ _ (fun h => hs' h.symm)] at he'
            obtain ⟨r0, hr0, p0, hp0, hfl⟩ := hfw sid' e' he'
            by_cases hrid : e'.roomId = entry.roomId
            · rw [hrid] at hr0 ⊢
              rw [heq2] at hr0
              injection hr0 with hr0e
              subst hr0e
              refine ⟨_, mapGet_set_self _ _ _, p0, ?_, hfl⟩
              show mapGet (mapDelete room.participants sid) sid' = some p0
              rw [mapGet_delete_ne _ _ _ (fun h => hs' h.symm)]
              exact hp0
            · rw [mapGet_set_ne _ _ _ _ (fun h => hrid h.symm)]
              exact ⟨r0, hr0, p0, hp0, hfl⟩
        · intro rid r' sid'' hr' hsome
          by_cases hridk : rid = entry.roomId
          · subst hridk
            rw [mapGet_set_self] at hr'
            injection hr' with hr'e
            subst hr'e
            by_cases hs'' : sid'' = sid
            · subst hs''
              have hsome' : (mapGet (mapDelete room.participants sid'') sid'').isSome := hsome
              rw [mapGet_delete_self _ _ (hwroom _ _ (mapGet_mem _ _ _ heq2))] at hsome'
              exact absurd hsome' (by simp)
            · have hsome' : (mapGet (mapDelete room.participants sid) sid'').isSome := hsome
              rw [mapGet_delete_ne _ _ _ (fun h => hs'' h.symm)] at hsome'
              obtain ⟨e, he, hride⟩ := hbk _ room sid'' heq2 hsome'
              refine ⟨e, ?_, hride⟩
              rw [mapGet_delete_ne _ _ _ (fun h => hs'' h.symm)]
              exact he
          · rw [mapGet_set_ne _ _ _ _ (fun h => hridk h.symm)] at hr'
            obtain ⟨e, he, hride⟩ := hbk rid r' sid'' hr' hsome
            by_cases hs'' : sid'' = sid
            · subst hs''
              rw [heq1] at he
              injection he with hee
              subst hee
              exact absurd hride.symm hridk
            · refine ⟨e, ?_, hride⟩
              rw [mapGet_delete_ne _ _ _ (fun h => hs'' h.symm)]
              exact he

theorem coherent_handleJoinRoom {s : ManagerState} {db : DB}
    {sid mid uid un : String} {now : Nat} {s' : ManagerState} {db' : DB}
    {resp : JoinResponse} {effs : List Effect}
    (h : handleJoinRoom s db sid mid uid un now = .ok (s', db', resp, effs))
    (hnew : mapGet s.participants sid = none)
    (hwf : StateWF s) (hco : Coherent s) :
    StateWF s' ∧ Coherent s' := by
  obtain ⟨hwr, hwp, hwroom⟩ := hwf
  obtain ⟨hfw, hbk⟩ := hco
  unfold handleJoinRoom at h
  split at h
  · exact absurd h (by simp)
  · dsimp only at h
    split at h
    · exact absurd h (by simp)
    · split at h
      · rename_i heqR
        simp only [Except.ok.injEq, Prod.mk.injEq] at h
        obtain ⟨hs, -, -, -⟩ := h
        subst hs
        refine ⟨⟨keysNodup_set _ _ _ (keysNodup_set _ _ _ hwr),
          keysNodup_set _ _ _ hwp, ?_⟩, ?_, ?_⟩
        · intro rid r hm
          rcases mem_mapSet_nodup _ _ _ _ (keysNodup_set _ _ _ hwr) hm with ⟨h1, hne1⟩ | h1
          · rcases mem_mapSet_nodup _ _ _ _ hwr h1 with ⟨h2, -⟩ | h2
            · exact hwroom _ _ h2
            · exact absurd (congrArg Prod.fst h2) hne1
          · have : r = _ := congrArg Prod.snd h1
            rw [this]
            exact keysNodup_set _ _ _ keysNodup_nil
        · intro sid' e' he'
          by_cases hs' : sid' = sid
          · subst hs'
            rw [mapGet_set_self] at he'
            injection he' with he''
            subst he''
            exact ⟨_, mapGet_set_self _ _ _, _, mapGet_set_self _ _ _, rfl, rfl, rfl⟩
          · rw [mapGet_set_ne _ _ _ _ (fun h => hs' h.symm)] at he'
            obtain ⟨r0, hr0, p0, hp0, hfl⟩ := hfw sid' e' he'
            by_cases hrid : e'.roomId = "meeting_" ++ mid
            · rw [hrid] at hr0
              rw [heqR] at hr0
              exact absurd hr0 (by simp)
            · rw [mapGet_set_ne _ _ _ _ (fun h => hrid h.symm),
                mapGet_set_ne _ _ _ _ (fun h => hrid h.symm)]
              exact ⟨r0, hr0, p0, hp0, hfl⟩
        · intro rid r' sid'' hr' hsome
          by_cases hridk : rid = "meeting_" ++ mid
          · subst hridk
            rw [mapGet_set_self] at hr'
            injection hr' with hr'e
            subst hr'e
            by_cases hs'' : sid'' = sid
            · subst hs''
              exact ⟨_, mapGet_set_self _ _ _, rfl⟩
            · have hsome' : (mapGet (mapSet ([] : List (String × Participant)) sid
                  { socketId := sid, userId := uid, userName := un,
                    isOrganizer := _, joinedAt := now, audio := true,
                    video := true, isScreenSharing := false }) sid'').isSome := hsome
              rw [mapGet_set_ne _ _ _ _ (fun h => hs'' h.symm)] at hsome'
              exact absurd hsome' (by simp)
          · rw [mapGet_set_ne _ _ _ _ (fun h => hridk h.symm),
              mapGet_set_ne _ _ _ _ (fun h => hridk h.symm)] at hr'
            obtain ⟨e, he, hride⟩ := hbk rid r' sid'' hr' hsome
            by_cases hs'' : sid'' = sid
            · subst hs''
              rw [hnew] at he
              exact absurd he (by simp)
            · refine ⟨e, ?_, hride⟩
              rw [mapGet_set_ne _ _ _ _ (fun h => hs'' h.symm)]
              exact he
      · rename_i room heqR
        simp only [Except.ok.injEq, Prod.mk.injEq] at h
        obtain ⟨hs, -, -, -⟩ := h
        subst hs
        refine ⟨⟨keysNodup_set _ _ _ hwr, keysNodup_set _ _ _ hwp, ?_⟩, ?_, ?_⟩
        · intro rid r hm
          rcases mem_mapSet_nodup _ _ _ _ hwr hm with ⟨h1, -⟩ | h1
          · exact hwroom _ _ h1
          · have : r = _ := congrArg Prod.snd h1
            rw [this]
            exact keysNodup_set _ _ _ (hwroom _ _ (mapGet_mem _ _ _ heqR))
        · intro sid' e' he'
          by_cases hs' : sid' = sid
          · subst hs'
            rw [mapGet_set_self] at he'
            injection he' with he''
            subst he''
            exact ⟨_, mapGet_set_self _ _ _, _, mapGet_set_self _ _ _, rfl, rfl, rfl⟩
          · rw [mapGet_set_ne _ _ _ _ (fun h => hs' h.symm)] at he'
            obtain ⟨r0, hr0, p0, hp0, hfl⟩ := hfw sid' e' he'
            by_cases hrid : e'.roomId = "meeting_" ++ mid
            · rw [hrid] at hr0 ⊢
              rw [heqR] at hr0
              injection hr0 with hr0e
              subst hr0e
              refine ⟨_, mapGet_set_self _ _ _, p0, ?_, hfl⟩
              show mapGet (mapSet room.participants sid _) sid' = some p0
              rw [mapGet_set_ne _ _ _ _ (fun h => hs' h.symm)]
              exact hp0
            · rw [mapGet_set_ne _ _ _ _ (fun h => hrid h.symm)]
              exact ⟨r0, hr0, p0, hp0, hfl⟩
        · intro rid r' sid'' hr' hsome
          by_cases hridk : rid = "meeting_" ++ mid
          · subst hridk
            rw [mapGet_set_self] at hr'
            injection hr' with hr'e
            subst hr'e
            by_cases hs'' : sid'' = sid
            · subst hs''
              exact ⟨_, mapGet_set_self _ _ _, rfl⟩
            · have hsome' : (mapGet (mapSet room.participants sid
                  { socketId := sid, userId := uid, userName := un,
                    isOrganizer := _, joinedAt := now, audio := true,
                    video := true, isScreenSharing := false }) sid'').isSome := hsome
              rw [mapGet_set_ne _ _ _ _ (fun h => hs'' h.symm)] at hsome'
              obtain ⟨e, he, hride⟩ := hbk _ room sid'' heqR hsome'
              refine ⟨e, ?_, hride⟩
              rw [mapGet_set_ne _ _ _ _ (fun h => hs'' h.symm)]
              exact he
          · rw [mapGet_set_ne _ _ _ _ (fun h => hridk h.symm)] at hr'
            obtain ⟨e, he, hride⟩ := hbk rid r' sid'' hr' hsome
            by_cases hs'' : sid'' = sid
            · subst hs''
              rw [hnew] at he
              exact absurd he (by simp)
            · refine ⟨e, ?_, hride⟩
              rw [mapGet_set_ne _ _ _ _ (fun h => hs'' h.symm)]
              exact he

theorem coherent_stepGuarded (sd : ManagerState × DB) (ev : SocketEvent)
    (hwf : StateWF sd.1) (hco : Coherent sd.1) :
    StateWF (stepGuarded sd ev).1 ∧ Coherent (stepGuarded sd ev).1 := by
  cases ev with
  | join sid mid uid un =>
    simp only [stepGuarded]
    by_cases hreg : (mapGet sd.1.participants sid).isSome
    · rw [if_pos hreg]
      exact ⟨hwf, hco⟩
    · rw [if_neg hreg]
      have hnone : mapGet sd.1.participants sid = none :=
        Option.not_isSome_iff_eq_none.mp hreg
      show StateWF (onJoinRoom sd.1 sd.2 sid mid uid un 0).1 ∧
        Coherent (onJoinRoom sd.1 sd.2 sid mid uid un 0).1
      unfold onJoinRoom
      cases h : handleJoinRoom sd.1 sd.2 sid mid uid un 0 with
      | error e => exact ⟨hwf, hco⟩
      | ok r =>
        obtain ⟨s', db', resp, effs⟩ := r
        exact coherent_handleJoinRoom h hnone hwf hco
  | offer sid tid d => exact ⟨hwf, hco⟩
  | answer sid tid d => exact ⟨hwf, hco⟩
  | ice sid tid d => exact ⟨hwf, hco⟩
  | toggleAudio sid b => exact coherent_toggleAudio sd.1 sid b hwf hco
  | toggleVideo sid b => exact coherent_toggleVideo sd.1 sid b hwf hco
  | startShare sid => exact coherent_startShare sd.1 sid hwf hco
  | stopShare sid => exact coherent_stopShare sd.1 sid hwf hco
  | chat sid msg mid2 => exact coherent_handleChatMessage sd.1 sid msg mid2 0 hwf hco
  | leave sid => exact coherent_removeParticipant true sd.1 sd.2 sid hwf hco
  | disconnect sid => exact coherent_removeParticipant true sd.1 sd.2 sid hwf hco

theorem coherent_runEventsGuarded (db : DB) (evs : List SocketEvent) :
    StateWF (runEventsGuarded db evs).1 ∧ Coherent (runEventsGuarded db evs).1 := by
  have key : ∀ (l : List SocketEvent) (sd : ManagerState × DB),
      StateWF sd.1 → Coherent sd.1 →
      StateWF (l.foldl stepGuarded sd).1 ∧ Coherent (l.foldl stepGuarded sd).1 := by
    intro l
    induction l with
    | nil => intro sd h1 h2; exact ⟨h1, h2⟩
    | cons e es ih =>
      intro sd h1 h2
      obtain ⟨h1', h2'⟩ := coherent_stepGuarded sd e h1 h2
      exact ih _ h1' h2'
  refine key evs (initialState, db) ⟨keysNodup_nil, keysNodup_nil, ?_⟩ ⟨?_, ?_⟩
  · intro rid r hm
    simp [initialState] at hm
  · intro sid e he
    simp [initialState, mapGet] at he
  · intro rid r sid hr
    simp [initialState, mapGet] at hr

/-- C10: under the assumption that no already-registered connection issues
a second join before leaving (the guarded run), after every event sequence
from a fresh coordinator the reverse index is coherent with the room
registry: an indexed connection's recorded room exists and contains it with
identical media flags (and conversely every room member is indexed under
that room's id); no connection sits in two rooms at once; and every room
member has a reverse-index entry. -/
theorem c10_reverse_index_coherence (db : DB) (evs : List SocketEvent) :
    Coherent (runEventsGuarded db evs).1 ∧
    (∀ sid rid₁ r₁ rid₂ r₂,
      mapGet (runEventsGuarded db evs).1.rooms rid₁ = some r₁ →
      mapGet (runEventsGuarded db evs).1.rooms rid₂ = some r₂ →
      (mapGet r₁.participants sid).isSome →
      (mapGet r₂.participants sid).isSome →
      rid₁ = rid₂) ∧
    (∀ sid rid r, mapGet (runEventsGuarded db evs).1.rooms rid = some r →
      (mapGet r.participants sid).isSome →
      (mapGet (runEventsGuarded db evs).1.participants sid).isSome) := by
  obtain ⟨hwf, hco⟩ := coherent_runEventsGuarded db evs
  refine ⟨hco, ?_, ?_⟩
  · intro sid rid₁ r₁ rid₂ r₂ h₁ h₂ hs₁ hs₂
    obtain ⟨e₁, he₁, hr₁⟩ := hco.2 rid₁ r₁ sid h₁ hs₁
    obtain ⟨e₂, he₂, hr₂⟩ := hco.2 rid₂ r₂ sid h₂ hs₂
    rw [he₁] at he₂
    injection he₂ with hee
    rw [← hr₁, ← hr₂, hee]
  · intro sid rid r hr hs
    obtain ⟨e, he, -⟩ := hco.2 rid r sid hr hs
    rw [he]
    rfl

end Nexus
